import Mathlib

/-!
A shallow embedding of the PE-parsing core of DepWalk (src/PECore/libpe.cpp)
together with proofs about its address arithmetic, header parsers and
directory parsers.

Modelling conventions:
* The mapped file is a `Buffer`: a list of bytes.  All multi-byte reads are
  little-endian, as in the source.  Reads beyond the end of the buffer
  yield 0; the source guards every dereference with `IsPtrSafe`, and the
  few places where it reads with a default (`GetTData`) return a
  zero-initialised value on an out-of-range offset, which coincides with
  this convention.
* Machine pointers `base + off` are modelled by the plain file offset
  `off`; the base address of the mapping is assumed not to make 64-bit
  pointer arithmetic wrap (`IsSumOverflow` on a genuine pointer plus a
  32-bit quantity is therefore modelled as false, with a note at each
  site).  `IsPtrSafe(base + off)` becomes `off < size`
  (or `off ≤ size` with the `fCanReferenceBoundary` flag).
* 32-bit (`DWORD`) arithmetic of the source is written with explicit
  `% 2 ^ 32`; `WORD` reads are < 2 ^ 16 by construction.
* `std::vector` accumulation with `break` is modelled by structurally
  recursive loops that return what has been collected so far.
-/

namespace DepWalk

/-- The mapped file: a byte buffer.  Bytes are stored as naturals; `byte`
normalises with `% 256` so every read is canonical. -/
structure Buffer where
  data : List Nat
deriving DecidableEq

namespace Buffer

/-- File size, `GetDataSize()` in the source. -/
def size (b : Buffer) : Nat := b.data.length

/-- Single byte read; out-of-range reads yield 0 (see module docstring). -/
def byte (b : Buffer) (i : Nat) : Nat := b.data.getD i 0 % 256

/-- Little-endian 16-bit read (`WORD`). -/
def read16 (b : Buffer) (i : Nat) : Nat := b.byte i + 256 * b.byte (i + 1)

/-- Little-endian 32-bit read (`DWORD`). -/
def read32 (b : Buffer) (i : Nat) : Nat :=
  b.byte i + 256 * b.byte (i + 1) + 65536 * b.byte (i + 2) + 16777216 * b.byte (i + 3)

/-- Little-endian 64-bit read (`ULONGLONG`). -/
def read64 (b : Buffer) (i : Nat) : Nat := b.read32 i + 4294967296 * b.read32 (i + 4)

/-- `IsPtrSafe(base + off, fCanReferenceBoundary)`: the pointer must lie
inside the mapping (or at its very end when the boundary flag is set).
The `dwAddr == 0` case of the source cannot arise for a real mapping
base, so it is not modelled. -/
def isPtrSafe (b : Buffer) (off : Nat) (canBoundary : Bool := false) : Bool :=
  if canBoundary then off ≤ b.size else off < b.size

/-- Length of the NUL-terminated byte string at `off` (the string stops at
the first zero byte; past the end of the buffer every read is 0, so the
scan always stops by `b.size`). -/
def cstrLen (b : Buffer) (off : Nat) : Nat :=
  go off (b.size + 1 - off)
where
  go (o : Nat) : Nat → Nat
    | 0 => 0
    | fuel + 1 => if b.byte o = 0 then 0 else go (o + 1) fuel + 1

/-- The NUL-terminated byte string at `off`, as a list of bytes. -/
def cstr (b : Buffer) (off : Nat) : List Nat :=
  (List.range (b.cstrLen off)).map (fun k => b.byte (off + k))

/-- `StringCchLengthA(sz, MAX_PATH, nullptr) != STRSAFE_E_INVALID_PARAMETER`
followed by a copy: the string is recorded only when its length is
strictly below `MAX_PATH` (260); otherwise the record keeps an empty
string. -/
def cstrMaxPath (b : Buffer) (off : Nat) : List Nat :=
  if b.cstrLen off < 260 then b.cstr off else []

end Buffer

/-- One parsed section header (the fields of `IMAGE_SECTION_HEADER` the
core consults, plus the raw 8 name bytes used by `GetSecHdrFromName`).
All fields are `DWORD`s in the source; well-formedness is stated where a
theorem needs it. -/
structure SectionHdr where
  name8 : List Nat := []
  vsize : Nat := 0        -- Misc.VirtualSize
  va : Nat := 0           -- VirtualAddress
  rawSize : Nat := 0      -- SizeOfRawData
  ptrRaw : Nat := 0       -- PointerToRawData
deriving DecidableEq

/-- The section fields are in `DWORD` range. -/
def SectionHdr.WF (s : SectionHdr) : Prop :=
  s.va < 2 ^ 32 ∧ s.vsize < 2 ^ 32 ∧ s.ptrRaw < 2 ^ 32

instance (s : SectionHdr) : Decidable s.WF := by unfold SectionHdr.WF; infer_instance

/-- The section-containment test of `GetSecHdrFromRVA` / `RVAToOffset`:
`ullRVA >= VirtualAddress && ullRVA < VirtualAddress + Misc.VirtualSize`.
The sum is computed in `DWORD` arithmetic, hence the `% 2 ^ 32`. -/
def secContains (s : SectionHdr) (rva : Nat) : Bool :=
  s.va ≤ rva ∧ rva < (s.va + s.vsize) % 2 ^ 32

/-- The offset `RVAToOffset` computes for a section containing `rva`:
`(DWORD)rva - (VirtualAddress - PointerToRawData)`, all in `DWORD`
arithmetic, then zeroed when it exceeds `(DWORD)file_size`. -/
def secOffset (s : SectionHdr) (fileSize rva : Nat) : Nat :=
  if (rva % 2 ^ 32 + 2 ^ 32 - (s.va + 2 ^ 32 - s.ptrRaw % 2 ^ 32) % 2 ^ 32) % 2 ^ 32
      > fileSize % 2 ^ 32
  then 0
  else (rva % 2 ^ 32 + 2 ^ 32 - (s.va + 2 ^ 32 - s.ptrRaw % 2 ^ 32) % 2 ^ 32) % 2 ^ 32

/-- `Clibpe::RVAToOffset`: fold over `m_vecSecHeaders`; every section whose
virtual range contains the RVA overwrites the result, so the last match
in table order wins; sections that do not contain the RVA leave the
accumulator alone.  The initial value (and hence the failure sentinel)
is 0. -/
def RVAToOffset (secs : List SectionHdr) (fileSize rva : Nat) : Nat :=
  secs.foldl (fun acc s => if secContains s rva then secOffset s fileSize rva else acc) 0

/-- `Clibpe::GetOffsetFromRVA`: returns 0 when the model is not loaded,
otherwise delegates to `RVAToOffset`. -/
def GetOffsetFromRVA (loaded : Bool) (secs : List SectionHdr) (fileSize rva : Nat) : Nat :=
  if loaded then RVAToOffset secs fileSize rva else 0

/-- `Clibpe::GetSecHdrFromRVA` over an (already bounds-safe) section list:
the first section containing the RVA.  (In the source the walk is over
the raw header table and returns null as soon as a header lies outside
the file; lists passed here are the in-bounds prefix of that table, see
`rawSecTable`.) -/
def getSecFromRVA (secs : List SectionHdr) (rva : Nat) : Option SectionHdr :=
  secs.find? (fun s => secContains s rva)

/-- `Clibpe::RVAToPtr`: resolve the section, form
`base + rva - (DWORD)(VirtualAddress - PointerToRawData)` and check it
with `IsPtrSafe(·, true)`.  A pointer below the base (the subtraction
underflowing) is unsafe, hence `none` when `rva < diff`. -/
def rvaToPtr (secs : List SectionHdr) (fileSize rva : Nat) : Option Nat :=
  match getSecFromRVA secs rva with
  | none => none
  | some s =>
    let diff := (s.va + 2 ^ 32 - s.ptrRaw % 2 ^ 32) % 2 ^ 32
    if rva < diff then none
    else if rva - diff ≤ fileSize then some (rva - diff) else none

/-! ### Address-arithmetic lemmas (claims C2 and C10) -/

/-- A fold that overwrites the accumulator at every match computes the
value of the last match (and keeps the initial value when nothing
matches).  This is the shape of the `RVAToOffset` loop. -/
theorem foldl_overwrite_eq_lastMatch (P : SectionHdr → Bool) (g : SectionHdr → Nat)
    (secs : List SectionHdr) (acc : Nat) :
    secs.foldl (fun a s => if P s then g s else a) acc =
      (match (secs.filter P).getLast? with
       | none => acc
       | some s => g s) := by
  induction secs generalizing acc with
  | nil => rfl
  | cons s t ih =>
    by_cases h : P s
    · simp only [List.foldl_cons, List.filter_cons, h, if_pos]
      rw [ih (g s)]
      cases ht : t.filter P with
      | nil => rfl
      | cons u v =>
        rw [List.getLast?_cons_cons]
        rcases hl : (u :: v).getLast? with _ | w
        · exact absurd hl (by simp)
        · rfl
    · simp only [List.foldl_cons, List.filter_cons, h, if_neg, Bool.false_eq_true,
        not_false_iff, ite_false]
      exact ih acc

theorem getLast?_of_all_eq {l : List SectionHdr} {s : SectionHdr}
    (hne : l ≠ []) (hall : ∀ x ∈ l, x = s) : l.getLast? = some s := by
  induction l with
  | nil => exact absurd rfl hne
  | cons a t ih =>
    cases t with
    | nil => simpa using hall a (by simp)
    | cons b u =>
      rw [List.getLast?_cons_cons]
      exact ih (by simp) (fun x hx => hall x (List.mem_cons_of_mem a hx))

/-- C2 counterexample input: a single section at the very top of the
32-bit address space, so that `VirtualAddress + VirtualSize` wraps when
the source computes it in `DWORD` arithmetic. -/
def c2Sec : SectionHdr := { vsize := 16, va := 4294967288, ptrRaw := 0 }

/-- C2 (counterexample): the RVA 4294967292 lies (in exact arithmetic) in
the unique section's virtual range `[va, va + vsize)` and the claimed
offset `rva - va + ptrRaw = 4` does not exceed the file size 100, yet
`RVAToOffset` yields the failure sentinel 0: the source computes
`VirtualAddress + VirtualSize` in 32-bit arithmetic, where it wraps to 8,
so the containment test fails. -/
theorem C2_rva_wrap_counterexample :
    (c2Sec.va ≤ 4294967292 ∧ 4294967292 < c2Sec.va + c2Sec.vsize) ∧
    4294967292 - c2Sec.va + c2Sec.ptrRaw ≤ 100 ∧
    RVAToOffset [c2Sec] 100 4294967292 = 0 := by decide

/-- C2 (amended): under 32-bit no-overflow side conditions — every
section's `va + vsize` and the computed offset stay below `2 ^ 32`, and
the file size is a `DWORD` — the conversion behaves as the claim states:
if no section's range contains the RVA it fails with the sentinel 0, and
if exactly one section's range contains the RVA it returns
`rva - va + ptrRaw` when that offset does not exceed the file size and
the sentinel 0 otherwise. -/
theorem C2_offset_from_rva (secs : List SectionHdr) (fs rva : Nat)
    (hWF : ∀ t ∈ secs, t.va + t.vsize < 2 ^ 32 ∧ t.ptrRaw < 2 ^ 32)
    (hfs : fs < 2 ^ 32) :
    ((∀ t ∈ secs, ¬ (t.va ≤ rva ∧ rva < t.va + t.vsize)) →
      RVAToOffset secs fs rva = 0) ∧
    (∀ s ∈ secs, (s.va ≤ rva ∧ rva < s.va + s.vsize) →
      (∀ t ∈ secs, (t.va ≤ rva ∧ rva < t.va + t.vsize) → t = s) →
      rva - s.va + s.ptrRaw < 2 ^ 32 →
      RVAToOffset secs fs rva =
        if rva - s.va + s.ptrRaw ≤ fs then rva - s.va + s.ptrRaw else 0) := by
  have hcont : ∀ t ∈ secs, (secContains t rva = true) ↔ (t.va ≤ rva ∧ rva < t.va + t.vsize) := by
    intro t ht
    have h1 := (hWF t ht).1
    simp only [secContains, Bool.decide_and, Bool.and_eq_true, decide_eq_true_eq]
    omega
  constructor
  · intro hnone
    rw [RVAToOffset, foldl_overwrite_eq_lastMatch]
    have h0 : secs.filter (fun s => secContains s rva) = [] := by
      rw [List.filter_eq_nil_iff]
      intro t ht hc
      exact hnone t ht ((hcont t ht).mp hc)
    rw [h0]
    rfl
  · intro s hs hin huniq hofflt
    rw [RVAToOffset, foldl_overwrite_eq_lastMatch]
    have hne : secs.filter (fun t => secContains t rva) ≠ [] := by
      intro hnil
      have := List.filter_eq_nil_iff.mp hnil s hs
      exact this ((hcont s hs).mpr hin)
    have hall : ∀ x ∈ secs.filter (fun t => secContains t rva), x = s := by
      intro x hx
      have hmem := List.mem_of_mem_filter hx
      have hxc := List.of_mem_filter hx
      exact huniq x hmem ((hcont x hmem).mp hxc)
    rw [getLast?_of_all_eq hne hall]
    have hva : s.va < 2 ^ 32 := lt_of_le_of_lt (Nat.le_add_right _ _) (hWF s hs).1
    have hrva : rva < 2 ^ 32 := lt_of_lt_of_le hin.2 (le_of_lt (hWF s hs).1)
    have hpr : s.ptrRaw < 2 ^ 32 := (hWF s hs).2
    have hle : s.va ≤ rva := hin.1
    show secOffset s fs rva = _
    unfold secOffset
    split_ifs with h1 h2 <;> omega

/-- C2 (witness): a well-formed single-section model on which the amended
theorem applies and yields the translated offset. -/
theorem C2_offset_from_rva_witness :
    ((∀ t ∈ [({ vsize := 4096, va := 16, ptrRaw := 16 } : SectionHdr)],
        t.va + t.vsize < 2 ^ 32 ∧ t.ptrRaw < 2 ^ 32) ∧ 5000 < 2 ^ 32) ∧
    RVAToOffset [{ vsize := 4096, va := 16, ptrRaw := 16 }] 5000 32 =
      if 32 - 16 + 16 ≤ 5000 then 32 - 16 + 16 else 0 :=
  ⟨⟨by decide, by decide⟩,
    (C2_offset_from_rva [{ vsize := 4096, va := 16, ptrRaw := 16 }] 5000 32
      (by decide) (by decide)).2 { vsize := 4096, va := 16, ptrRaw := 16 }
      (by decide) (by decide) (by decide) (by decide)⟩

/-- C10: `GetOffsetFromRVA` is total; on an unloaded model it returns the
sentinel 0 (indistinguishable from a genuine offset 0); on a loaded model
`RVAToOffset` returns the value computed from the *last* section in table
order whose (32-bit) virtual range contains the RVA — with no uniqueness
check — the sentinel 0 when no section's range contains the RVA, and the
sentinel 0 when that last section's computed offset exceeds the file
size. -/
theorem C10_offset_total_lastMatch (secs : List SectionHdr) (fs rva : Nat) :
    GetOffsetFromRVA false secs fs rva = 0 ∧
    RVAToOffset secs fs rva =
      (match (secs.filter (fun s => secContains s rva)).getLast? with
       | none => 0
       | some s => secOffset s fs rva) ∧
    ((∀ s ∈ secs, secContains s rva = false) → RVAToOffset secs fs rva = 0) ∧
    (∀ s : SectionHdr, (secs.filter (fun t => secContains t rva)).getLast? = some s →
      secOffset s fs rva > fs % 2 ^ 32 → False) := by
  refine ⟨rfl, foldl_overwrite_eq_lastMatch _ _ secs 0, ?_, ?_⟩
  · intro hnone
    rw [RVAToOffset, foldl_overwrite_eq_lastMatch]
    have h0 : secs.filter (fun s => secContains s rva) = [] := by
      rw [List.filter_eq_nil_iff]
      intro t ht hc
      rw [hnone t ht] at hc
      exact Bool.false_ne_true hc
    rw [h0]
    rfl
  · intro s _ hgt
    unfold secOffset at hgt
    split at hgt
    · exact absurd hgt (by omega)
    · omega

/-- C10 (witness): two overlapping sections; the translation uses the
second (last) one. -/
theorem C10_offset_total_lastMatch_witness :
    (∀ s ∈ ([] : List SectionHdr), secContains s 7 = false) ∧
    RVAToOffset [] 10 7 = 0 ∧
    RVAToOffset [{ vsize := 256, va := 0, ptrRaw := 0 },
                 { vsize := 256, va := 0, ptrRaw := 1024 }] 4096 7 =
      (match (([{ vsize := 256, va := 0, ptrRaw := 0 },
                { vsize := 256, va := 0, ptrRaw := 1024 }] : List SectionHdr).filter
                (fun s => secContains s 7)).getLast? with
       | none => 0
       | some s => secOffset s 4096 7) :=
  ⟨by decide, (C10_offset_total_lastMatch [] 10 7).2.2.1 (by decide),
    (C10_offset_total_lastMatch _ 4096 7).2.1⟩

/-! ### Rich header (claim C6) -/

/-- One decoded Rich-stub entry (`PERICHHDR`): file offset, build-id
(high word of the first xored DWORD), product-id (low word), use-count
(the second xored DWORD). -/
structure RichEntry where
  off : Nat
  buildID : Nat
  productID : Nat
  useCount : Nat
deriving DecidableEq

/-- The match condition of the `ParseRichHeader` scan at DWORD offset
`off`: the DWORD is "Rich", xoring the DWORD at 0x80 with the DWORD
right after "Rich" gives "DanS", and the "Rich" DWORD sits at offset
≥ 0x90. -/
def richCond (b : Buffer) (off : Nat) : Bool :=
  b.read32 off = 0x68636952 ∧ (b.read32 0x80) ^^^ (b.read32 (off + 4)) = 0x536E6144 ∧
    0x90 ≤ off

/-- The scan loop of `ParseRichHeader`: DWORD index `i` runs while
`i < (e_lfanew - 0x80) / 4`; the first offset satisfying `richCond`
wins.  `count` is the number of indices still to try. -/
def richFind (b : Buffer) (i : Nat) : Nat → Option Nat
  | 0 => none
  | count + 1 =>
    if richCond b (0x80 + 4 * i) then some (0x80 + 4 * i) else richFind b (i + 1) count

/-- Decoding of the j-th Rich entry (two DWORDs at 0x90 + 8j):
`HIWORD(key ^ d0)` = build-id, `LOWORD(key ^ d0)` = product-id,
`key ^ d1` = use-count. -/
def richEntryAt (b : Buffer) (key j : Nat) : RichEntry :=
  { off := 0x90 + 8 * j,
    buildID := (key ^^^ b.read32 (0x90 + 8 * j)) / 2 ^ 16,
    productID := (key ^^^ b.read32 (0x90 + 8 * j)) % 2 ^ 16,
    useCount := key ^^^ b.read32 (0x90 + 8 * j + 4) }

/-- `Clibpe::ParseRichHeader`: returns the recorded entries and the
`HasRichHdr` flag.  `e_lfanew` is a signed `LONG`; a value ≥ 2^31 is
negative and so fails the `e_lfanew <= 0x80` test of the source, and
`IsPtrSafe(base + e_lfanew)` requires `e_lfanew < size`. -/
def parseRichHeader (b : Buffer) : List RichEntry × Bool :=
  let lfa := b.read32 0x3C
  if 2 ^ 31 ≤ lfa ∨ lfa ≤ 0x80 then ([], false)
  else if ¬ b.isPtrSafe lfa then ([], false)
  else
    match richFind b 0 ((lfa - 0x80) / 4) with
    | none => ([], false)
    | some off =>
      (((List.range ((off - 0x90) / 8)).map (richEntryAt b (b.read32 (off + 4)))), true)

/-- Modelled from the spec (the claim's side of the refinement): scan the
DWORDs of the file from offset 0x80 up to `e_lfanew` and take the first
offset whose DWORD is "Rich", whose following DWORD xors the DWORD at
0x80 to "DanS", and which lies at ≥ 0x90. -/
def specRichFound (b : Buffer) : Option Nat :=
  ((List.range ((b.read32 0x3C - 0x80) / 4)).map (fun i => 0x80 + 4 * i)).find?
    (fun off => richCond b off)

theorem richFind_eq_find (b : Buffer) (count : Nat) : ∀ i : Nat,
    richFind b i count =
      ((List.range count).map (fun j => 0x80 + 4 * (i + j))).find? (fun off => richCond b off) := by
  induction count with
  | zero => intro i; rfl
  | succ c ih =>
    intro i
    rw [List.range_succ_eq_map, List.map_cons, List.map_map]
    simp only [Nat.add_zero]
    by_cases h : richCond b (0x80 + 4 * i)
    · rw [List.find?_cons_of_pos _ h]
      show (if richCond b (0x80 + 4 * i) then some (0x80 + 4 * i)
            else richFind b (i + 1) c) = _
      rw [if_pos h]
    · rw [List.find?_cons_of_neg _ (by simpa using h)]
      show (if richCond b (0x80 + 4 * i) then some (0x80 + 4 * i)
            else richFind b (i + 1) c) = _
      rw [if_neg h, ih (i + 1)]
      congr 1
      refine List.map_congr_left (fun a _ => ?_)
      simp only [Function.comp_apply]
      omega

/-- C6: under a sane `e_lfanew` (positive as a signed LONG, greater than
0x80, inside the file — the preconditions under which the source scans at
all), Rich entries are recorded iff the scan from 0x80 up to `e_lfanew`
finds a "Rich" DWORD at offset ≥ 0x90 whose following DWORD xors the
DWORD at 0x80 to "DanS"; on a match at offset `off` exactly
`(off - 0x90) / 8` entries are recorded starting at 0x90, the j-th
decoded as build-id `HIWORD(key ^ d0)`, product-id `LOWORD(key ^ d0)`,
use-count `key ^ d1`; on no match, no entries. -/
theorem C6_rich_header (b : Buffer)
    (hpos : b.read32 0x3C < 2 ^ 31) (hgt : 0x80 < b.read32 0x3C)
    (hlt : b.read32 0x3C < b.size) :
    ((parseRichHeader b).2 = true ↔ (specRichFound b).isSome = true) ∧
    (∀ off, specRichFound b = some off →
      (parseRichHeader b).1 =
        (List.range ((off - 0x90) / 8)).map (richEntryAt b (b.read32 (off + 4)))) ∧
    (specRichFound b = none → (parseRichHeader b).1 = []) := by
  have hguard1 : ¬ (2 ^ 31 ≤ b.read32 0x3C ∨ b.read32 0x3C ≤ 0x80) := by omega
  have hguard2 : b.isPtrSafe (b.read32 0x3C) = true := by
    simp [Buffer.isPtrSafe, hlt]
  have hfind : richFind b 0 ((b.read32 0x3C - 0x80) / 4) = specRichFound b := by
    rw [richFind_eq_find, specRichFound]
    simp only [Nat.zero_add]
  rw [parseRichHeader]
  simp only [if_neg hguard1, hguard2, not_true_eq_false, Bool.false_eq_true, if_neg,
    ite_false, hfind]
  refine ⟨?_, ?_, ?_⟩
  · cases h : specRichFound b <;> simp [h]
  · intro off hoff
    rw [hoff]
  · intro h
    rw [h]

/-- Concrete Rich-header witness buffer: `e_lfanew = 0xA0`, "DanS" (key 0)
at 0x80, one entry {build 0x1234, product 1, uses 5} at 0x90, "Rich" at
0x98, key 0 at 0x9C. -/
def store32 (l : List Nat) (i v : Nat) : List Nat :=
  ((((l.set i (v % 256)).set (i + 1) (v / 256 % 256)).set
    (i + 2) (v / 65536 % 256)).set (i + 3) (v / 16777216 % 256))

def richBuf : Buffer :=
  ⟨store32 (store32 (store32 (store32 (store32 (List.replicate 0xA8 0)
      0x3C 0xA0) 0x80 0x536E6144) 0x90 0x12340001) 0x94 5) 0x98 0x68636952⟩

set_option maxRecDepth 4000 in
/-- C6 (witness): the witness buffer satisfies the preconditions, the
scan finds the "Rich" DWORD at 0x98, and the theorem yields the single
decoded entry. -/
theorem C6_rich_header_witness :
    (richBuf.read32 0x3C < 2 ^ 31 ∧ 0x80 < richBuf.read32 0x3C ∧
      richBuf.read32 0x3C < richBuf.size ∧ specRichFound richBuf = some 0x98) ∧
    (parseRichHeader richBuf).1 =
      (List.range ((0x98 - 0x90) / 8)).map (richEntryAt richBuf (richBuf.read32 (0x98 + 4))) :=
  ⟨⟨by decide, by decide, by decide, by decide⟩,
    (C6_rich_header richBuf (by decide) (by decide) (by decide)).2.1 0x98 (by decide)⟩

/-! ### Resource directory (claim C3)

`Clibpe::ParseResources` walks a root `IMAGE_RESOURCE_DIRECTORY` and up
to two nested levels.  An `IMAGE_RESOURCE_DIRECTORY` is 16 bytes with the
two entry counts at offsets 12 and 14; each
`IMAGE_RESOURCE_DIRECTORY_ENTRY` is two DWORDs (name/id, offset); bit 31
of the name DWORD is `NameIsString`, bit 31 of the offset DWORD is
`DataIsDirectory` and the low 31 bits are the offset relative to the
resource root.  The `IsSumOverflow(root, NameOffset)` checks of the
source add a 32-bit quantity to a genuine mapped pointer and cannot wrap
in this model (see the module docstring), so the `break`s they guard do
not appear. -/

/-- `IMAGE_RESOURCE_DATA_ENTRY` (16 bytes). -/
structure ResDataEntry where
  offsetToData : Nat := 0
  size : Nat := 0
  codePage : Nat := 0
  reserved : Nat := 0
deriving DecidableEq

def readDataEntry (b : Buffer) (off : Nat) : ResDataEntry :=
  { offsetToData := b.read32 off, size := b.read32 (off + 4),
    codePage := b.read32 (off + 8), reserved := b.read32 (off + 12) }

/-- The name recorded for a directory entry: when `NameIsString` (bit 31
of the name DWORD) the `IMAGE_RESOURCE_DIR_STRING_U` at
root + NameOffset is copied — at most MAX_PATH UTF-16 units — provided
its pointer is in bounds. -/
def entryResName (b : Buffer) (rootOff nameField : Nat) : List Nat :=
  if 2 ^ 31 ≤ nameField then
    if b.isPtrSafe (rootOff + nameField % 2 ^ 31) then
      (List.range
        (if b.read16 (rootOff + nameField % 2 ^ 31) < 260
         then b.read16 (rootOff + nameField % 2 ^ 31) else 260)).map
        (fun k => b.read16 (rootOff + nameField % 2 ^ 31 + 2 + 2 * k))
    else []
  else []

/-- A data leaf: the `IMAGE_RESOURCE_DATA_ENTRY` at root + OffsetToData
(zeroed when out of bounds), and the raw bytes copied from the RVA it
names, when that RVA resolves and the span fits the file
boundary-inclusively. -/
def readLeaf (b : Buffer) (secs : List SectionHdr) (rootOff offField : Nat) :
    ResDataEntry × List Nat :=
  if b.isPtrSafe (rootOff + offField) then
    let de := readDataEntry b (rootOff + offField)
    match rvaToPtr secs b.size de.offsetToData with
    | none => (de, [])
    | some p =>
      if b.isPtrSafe (p + de.size) true
      then (de, (List.range de.size).map (fun k => b.byte (p + k)))
      else (de, [])
  else ({}, [])

/-- Level-3 record: the directory's own file offset, its two entry
counts, and its recorded entries. -/
structure ResLvl3Entry where
  entryName : Nat := 0
  entryOffsetToData : Nat := 0
  resName : List Nat := []
  dataEntry : ResDataEntry := {}
  rawData : List Nat := []
deriving DecidableEq

structure ResLvl3 where
  off : Nat := 0
  numNamed : Nat := 0
  numId : Nat := 0
  data : List ResLvl3Entry := []
deriving DecidableEq

structure ResLvl2Entry where
  entryName : Nat := 0
  entryOffsetToData : Nat := 0
  resName : List Nat := []
  dataEntry : ResDataEntry := {}
  rawData : List Nat := []
  lvl3 : ResLvl3 := {}
deriving DecidableEq

structure ResLvl2 where
  off : Nat := 0
  numNamed : Nat := 0
  numId : Nat := 0
  data : List ResLvl2Entry := []
deriving DecidableEq

structure ResRootEntry where
  entryName : Nat := 0
  entryOffsetToData : Nat := 0
  resName : List Nat := []
  dataEntry : ResDataEntry := {}
  rawData : List Nat := []
  lvl2 : ResLvl2 := {}
deriving DecidableEq

structure ResRoot where
  off : Nat := 0
  numNamed : Nat := 0
  numId : Nat := 0
  data : List ResRootEntry := []
deriving DecidableEq

/-- The level-3 entry loop: level-3 entries are always data leaves (the
tree is cut at depth 3); the loop stops early — keeping what was
collected — when advancing the entry pointer leaves the file. -/
def parse3Entries (b : Buffer) (secs : List SectionHdr) (rootOff : Nat) :
    Nat → Nat → List ResLvl3Entry
  | _, 0 => []
  | eOff, count + 1 =>
    if b.isPtrSafe (eOff + 8) then
      { entryName := b.read32 eOff, entryOffsetToData := b.read32 (eOff + 4),
        resName := entryResName b rootOff (b.read32 eOff),
        dataEntry := (readLeaf b secs rootOff (b.read32 (eOff + 4))).1,
        rawData := (readLeaf b secs rootOff (b.read32 (eOff + 4))).2 } ::
        parse3Entries b secs rootOff (eOff + 8) count
    else
      [{ entryName := b.read32 eOff, entryOffsetToData := b.read32 (eOff + 4),
         resName := entryResName b rootOff (b.read32 eOff),
         dataEntry := (readLeaf b secs rootOff (b.read32 (eOff + 4))).1,
         rawData := (readLeaf b secs rootOff (b.read32 (eOff + 4))).2 }]

/-- Descent into a level-3 child directory.  `none` models the `break`
that aborts the level-2 loop (unsafe child pointer or unsafe entry
span); the cycle guard `pResDirLvL3 == pResDirLvL2 || == pResDirRoot`
records the directory with an empty entry list. -/
def parse3Dir (b : Buffer) (secs : List SectionHdr) (rootOff lvl2Off offField : Nat) :
    Option ResLvl3 :=
  if ¬ b.isPtrSafe (rootOff + offField % 2 ^ 31) then none
  else if rootOff + offField % 2 ^ 31 = lvl2Off ∨ rootOff + offField % 2 ^ 31 = rootOff then
    some { off := rootOff + offField % 2 ^ 31,
           numNamed := b.read16 (rootOff + offField % 2 ^ 31 + 12),
           numId := b.read16 (rootOff + offField % 2 ^ 31 + 14), data := [] }
  else if ¬ b.isPtrSafe (rootOff + offField % 2 ^ 31 + 16 +
        8 * (b.read16 (rootOff + offField % 2 ^ 31 + 12) +
             b.read16 (rootOff + offField % 2 ^ 31 + 14))) then none
  else
    some { off := rootOff + offField % 2 ^ 31,
           numNamed := b.read16 (rootOff + offField % 2 ^ 31 + 12),
           numId := b.read16 (rootOff + offField % 2 ^ 31 + 14),
           data := parse3Entries b secs rootOff (rootOff + offField % 2 ^ 31 + 16)
                     (b.read16 (rootOff + offField % 2 ^ 31 + 12) +
                      b.read16 (rootOff + offField % 2 ^ 31 + 14)) }

/-- The level-2 entry loop.  A directory entry whose level-3 descent
aborts (`parse3Dir = none`) breaks the loop without recording the
current entry; otherwise the entry is recorded and the loop stops when
the entry-pointer advance leaves the file. -/
def parse2Entries (b : Buffer) (secs : List SectionHdr) (rootOff lvl2Off : Nat) :
    Nat → Nat → List ResLvl2Entry
  | _, 0 => []
  | eOff, count + 1 =>
    if 2 ^ 31 ≤ b.read32 (eOff + 4) then
      match parse3Dir b secs rootOff lvl2Off (b.read32 (eOff + 4)) with
      | none => []
      | some l3 =>
        if b.isPtrSafe (eOff + 8) then
          { entryName := b.read32 eOff, entryOffsetToData := b.read32 (eOff + 4),
            resName := entryResName b rootOff (b.read32 eOff),
            dataEntry := {}, rawData := [], lvl3 := l3 } ::
            parse2Entries b secs rootOff lvl2Off (eOff + 8) count
        else
          [{ entryName := b.read32 eOff, entryOffsetToData := b.read32 (eOff + 4),
             resName := entryResName b rootOff (b.read32 eOff),
             dataEntry := {}, rawData := [], lvl3 := l3 }]
    else
      if b.isPtrSafe (eOff + 8) then
        { entryName := b.read32 eOff, entryOffsetToData := b.read32 (eOff + 4),
          resName := entryResName b rootOff (b.read32 eOff),
          dataEntry := (readLeaf b secs rootOff (b.read32 (eOff + 4))).1,
          rawData := (readLeaf b secs rootOff (b.read32 (eOff + 4))).2, lvl3 := {} } ::
          parse2Entries b secs rootOff lvl2Off (eOff + 8) count
      else
        [{ entryName := b.read32 eOff, entryOffsetToData := b.read32 (eOff + 4),
           resName := entryResName b rootOff (b.read32 eOff),
           dataEntry := (readLeaf b secs rootOff (b.read32 (eOff + 4))).1,
           rawData := (readLeaf b secs rootOff (b.read32 (eOff + 4))).2, lvl3 := {} }]

/-- Descent into a level-2 child directory; the cycle guard
`pResDirLvL2 == pResDirRoot` records the directory with an empty entry
list. -/
def parse2Dir (b : Buffer) (secs : List SectionHdr) (rootOff offField : Nat) :
    Option ResLvl2 :=
  if ¬ b.isPtrSafe (rootOff + offField % 2 ^ 31) then none
  else if rootOff + offField % 2 ^ 31 = rootOff then
    some { off := rootOff + offField % 2 ^ 31,
           numNamed := b.read16 (rootOff + offField % 2 ^ 31 + 12),
           numId := b.read16 (rootOff + offField % 2 ^ 31 + 14), data := [] }
  else if ¬ b.isPtrSafe (rootOff + offField % 2 ^ 31 + 16 +
        8 * (b.read16 (rootOff + offField % 2 ^ 31 + 12) +
             b.read16 (rootOff + offField % 2 ^ 31 + 14))) then none
  else
    some { off := rootOff + offField % 2 ^ 31,
           numNamed := b.read16 (rootOff + offField % 2 ^ 31 + 12),
           numId := b.read16 (rootOff + offField % 2 ^ 31 + 14),
           data := parse2Entries b secs rootOff (rootOff + offField % 2 ^ 31)
                     (rootOff + offField % 2 ^ 31 + 16)
                     (b.read16 (rootOff + offField % 2 ^ 31 + 12) +
                      b.read16 (rootOff + offField % 2 ^ 31 + 14)) }

/-- The root entry loop, parallel to `parse2Entries`. -/
def parseRootEntries (b : Buffer) (secs : List SectionHdr) (rootOff : Nat) :
    Nat → Nat → List ResRootEntry
  | _, 0 => []
  | eOff, count + 1 =>
    if 2 ^ 31 ≤ b.read32 (eOff + 4) then
      match parse2Dir b secs rootOff (b.read32 (eOff + 4)) with
      | none => []
      | some l2 =>
        if b.isPtrSafe (eOff + 8) then
          { entryName := b.read32 eOff, entryOffsetToData := b.read32 (eOff + 4),
            resName := entryResName b rootOff (b.read32 eOff),
            dataEntry := {}, rawData := [], lvl2 := l2 } ::
            parseRootEntries b secs rootOff (eOff + 8) count
        else
          [{ entryName := b.read32 eOff, entryOffsetToData := b.read32 (eOff + 4),
             resName := entryResName b rootOff (b.read32 eOff),
             dataEntry := {}, rawData := [], lvl2 := l2 }]
    else
      if b.isPtrSafe (eOff + 8) then
        { entryName := b.read32 eOff, entryOffsetToData := b.read32 (eOff + 4),
          resName := entryResName b rootOff (b.read32 eOff),
          dataEntry := (readLeaf b secs rootOff (b.read32 (eOff + 4))).1,
          rawData := (readLeaf b secs rootOff (b.read32 (eOff + 4))).2, lvl2 := {} } ::
          parseRootEntries b secs rootOff (eOff + 8) count
      else
        [{ entryName := b.read32 eOff, entryOffsetToData := b.read32 (eOff + 4),
           resName := entryResName b rootOff (b.read32 eOff),
           dataEntry := (readLeaf b secs rootOff (b.read32 (eOff + 4))).1,
           rawData := (readLeaf b secs rootOff (b.read32 (eOff + 4))).2, lvl2 := {} }]

/-- `Clibpe::ParseResources` given the resolved root offset; `none` when
one of the top-level bounds checks fails (the `HasResource` flag stays
unset). -/
def parseResources (b : Buffer) (secs : List SectionHdr) (rootOff : Nat) : Option ResRoot :=
  if ¬ b.isPtrSafe (rootOff + 16) then none
  else if ¬ b.isPtrSafe (rootOff + 16 + 8 * (b.read16 (rootOff + 12) + b.read16 (rootOff + 14)))
  then none
  else
    some { off := rootOff, numNamed := b.read16 (rootOff + 12),
           numId := b.read16 (rootOff + 14),
           data := parseRootEntries b secs rootOff (rootOff + 16)
                     (b.read16 (rootOff + 12) + b.read16 (rootOff + 14)) }

/-- Depth of the recorded resource tree, counting directory levels. -/
def resDepth (r : ResRoot) : Nat :=
  1 + (r.data.map (fun e =>
        1 + (e.lvl2.data.map (fun _ => 1)).foldr max 0)).foldr max 0

/-- The cycle-guard shape of a recorded tree: any level-2 child directory
recorded at the root's own offset is empty, and any level-3 child
directory recorded at the root's offset or at its level-2 parent's
offset is empty. -/
def cycleGuarded (r : ResRoot) (rootOff : Nat) : Prop :=
  ∀ e ∈ r.data,
    (e.lvl2.off = rootOff → e.lvl2.data = []) ∧
    ∀ e2 ∈ e.lvl2.data,
      (e2.lvl3.off = rootOff ∨ e2.lvl3.off = e.lvl2.off) → e2.lvl3.data = []

instance (r : ResRoot) (rootOff : Nat) : Decidable (cycleGuarded r rootOff) := by
  unfold cycleGuarded; infer_instance

theorem foldrMax_le (l : List Nat) (c : Nat) (h : ∀ x ∈ l, x ≤ c) : l.foldr max 0 ≤ c := by
  induction l with
  | nil => simp
  | cons a t ih =>
    simp only [List.foldr_cons, max_le_iff]
    exact ⟨h a (by simp), ih (fun y hy => h y (by simp [hy]))⟩

theorem parse3Dir_guard (b : Buffer) (secs : List SectionHdr) (rootOff lvl2Off offField : Nat)
    (l3 : ResLvl3) (h : parse3Dir b secs rootOff lvl2Off offField = some l3) :
    (l3.off = rootOff ∨ l3.off = lvl2Off) → l3.data = [] := by
  intro hoff
  unfold parse3Dir at h
  split_ifs at h with h1 h2 h3
  · cases h; rfl
  · cases h
    simp only at hoff
    exact absurd (Or.symm hoff) h2

theorem parse2Entries_guard (b : Buffer) (secs : List SectionHdr) (rootOff lvl2Off : Nat) :
    ∀ count eOff, ∀ e2 ∈ parse2Entries b secs rootOff lvl2Off eOff count,
      (e2.lvl3.off = rootOff ∨ e2.lvl3.off = lvl2Off) → e2.lvl3.data = [] := by
  intro count
  induction count with
  | zero => intro eOff e2 h; exact absurd h (by simp [parse2Entries])
  | succ c ih =>
    intro eOff e2 h
    unfold parse2Entries at h
    split at h
    · split at h
      · exact absurd h (by simp)
      · rename_i l3 h3
        split at h
        · rcases List.mem_cons.mp h with he | ht
          · subst he; exact parse3Dir_guard b secs rootOff lvl2Off _ l3 h3
          · exact ih (eOff + 8) e2 ht
        · rw [List.mem_singleton] at h
          subst h; exact parse3Dir_guard b secs rootOff lvl2Off _ l3 h3
    · split at h
      · rcases List.mem_cons.mp h with he | ht
        · subst he; intro; rfl
        · exact ih (eOff + 8) e2 ht
      · rw [List.mem_singleton] at h
        subst h; intro; rfl

theorem parse2Dir_guard (b : Buffer) (secs : List SectionHdr) (rootOff offField : Nat)
    (l2 : ResLvl2) (h : parse2Dir b secs rootOff offField = some l2) :
    (l2.off = rootOff → l2.data = []) ∧
    ∀ e2 ∈ l2.data, (e2.lvl3.off = rootOff ∨ e2.lvl3.off = l2.off) → e2.lvl3.data = [] := by
  unfold parse2Dir at h
  split_ifs at h with h1 h2 h3
  · cases h; exact ⟨fun _ => rfl, by simp⟩
  · cases h
    refine ⟨fun hc => absurd hc h2, ?_⟩
    exact parse2Entries_guard b secs rootOff _ _ _

theorem parseRootEntries_guard (b : Buffer) (secs : List SectionHdr) (rootOff : Nat) :
    ∀ count eOff, ∀ e ∈ parseRootEntries b secs rootOff eOff count,
      (e.lvl2.off = rootOff → e.lvl2.data = []) ∧
      ∀ e2 ∈ e.lvl2.data,
        (e2.lvl3.off = rootOff ∨ e2.lvl3.off = e.lvl2.off) → e2.lvl3.data = [] := by
  intro count
  induction count with
  | zero => intro eOff e h; exact absurd h (by simp [parseRootEntries])
  | succ c ih =>
    intro eOff e h
    unfold parseRootEntries at h
    split at h
    · split at h
      · exact absurd h (by simp)
      · rename_i l2 h2
        split at h
        · rcases List.mem_cons.mp h with he | ht
          · subst he; exact parse2Dir_guard b secs rootOff _ l2 h2
          · exact ih (eOff + 8) e ht
        · rw [List.mem_singleton] at h
          subst h; exact parse2Dir_guard b secs rootOff _ l2 h2
    · split at h
      · rcases List.mem_cons.mp h with he | ht
        · subst he; exact ⟨fun _ => rfl, by simp⟩
        · exact ih (eOff + 8) e ht
      · rw [List.mem_singleton] at h
        subst h; exact ⟨fun _ => rfl, by simp⟩

/-- C3: resource parsing is a total function (the loops above are
structurally recursive, so it terminates on every input), the recorded
tree has depth at most 3, and the cycle guards hold: a level-2 child
directory recorded at the resource root's offset is a terminal empty
node, and a level-3 child directory recorded at the root's offset or at
its level-2 parent's offset is a terminal empty node — descent past a
self-referential directory pointer never occurs. -/
theorem C3_resources_guarded (b : Buffer) (secs : List SectionHdr) (rootOff : Nat)
    (r : ResRoot) (h : parseResources b secs rootOff = some r) :
    resDepth r ≤ 3 ∧ cycleGuarded r rootOff := by
  constructor
  · unfold resDepth
    have h1 : ∀ x ∈ r.data.map
        (fun e => 1 + (e.lvl2.data.map (fun _ => 1)).foldr max 0), x ≤ 2 := by
      intro x hx
      rcases List.mem_map.mp hx with ⟨e, _, hxe⟩
      subst hxe
      have h2 := foldrMax_le (e.lvl2.data.map (fun _ => 1)) 1 (by
        intro y hy
        rcases List.mem_map.mp hy with ⟨_, _, hy1⟩
        omega)
      omega
    have h3 := foldrMax_le _ 2 h1
    omega
  · unfold parseResources at h
    split_ifs at h with hg1 hg2
    · cases h
      intro e he
      exact parseRootEntries_guard b secs rootOff _ _ e he

/-- C3 witness buffer: a resource root at offset 0 with one id entry
whose child directory pointer is the root itself (`OffsetToDirectory`
0x80000000 & 0x7FFFFFFF = 0): the cycle guard records a terminal empty
level-2 node. -/
def resBuf : Buffer :=
  ⟨store32 (store32 ((List.replicate 0x20 0).set 14 1) 0x10 7) 0x14 0x80000000⟩

/-- The tree the witness buffer parses to. -/
def resRootC : ResRoot :=
  { off := 0, numNamed := 0, numId := 1,
    data := [{ entryName := 7, entryOffsetToData := 0x80000000,
               lvl2 := { off := 0, numNamed := 0, numId := 1, data := [] } }] }

/-- C3 (witness): parsing the self-referential witness resource tree
terminates with a depth-≤-3, cycle-guarded tree whose single level-2
child is the empty terminal node at the root's own offset. -/
theorem C3_resources_guarded_witness :
    parseResources resBuf [] 0 = some resRootC ∧
    (resDepth resRootC ≤ 3 ∧ cycleGuarded resRootC 0) :=
  ⟨by decide, C3_resources_guarded resBuf [] 0 resRootC (by decide)⟩

/-! ### Import directory (claims C4 and C5)

`Clibpe::ParseImport`.  An `IMAGE_IMPORT_DESCRIPTOR` is 20 bytes:
OriginalFirstThunk at 0, TimeDateStamp at 4, ForwarderChain at 8, Name at
12, FirstThunk at 16.  The source caps the walk at `iMaxModules = 1000`
descriptors and `iMaxFuncs = 5000` thunk-loop counter increments; the
loops below carry the countdown `remaining = iMax… - i…Count`, so the
`++count == iMax…` break of the source is `remaining = 0` after one
decrement. -/

structure ImportFunc where
  thunk : Nat := 0          -- the 32- or 64-bit thunk value
  hint : Nat := 0           -- IMAGE_IMPORT_BY_NAME::Hint
  funcName : List Nat := []
deriving DecidableEq

structure ImportModule where
  off : Nat := 0            -- descriptor file offset
  oft : Nat := 0            -- OriginalFirstThunk
  ft : Nat := 0             -- FirstThunk
  dllName : List Nat := []
  funcs : List ImportFunc := []
deriving DecidableEq

/-- Resolve an `IMAGE_IMPORT_BY_NAME` at the given RVA: hint word and
NUL-terminated name, recorded only when the name's length passes the
MAX_PATH check (otherwise the zeroed record is kept). -/
def importByName (b : Buffer) (secs : List SectionHdr) (rva : Nat) : Nat × List Nat :=
  match rvaToPtr secs b.size rva with
  | none => (0, [])
  | some p => if b.cstrLen (p + 2) < 260 then (b.read16 p, b.cstr (p + 2)) else (0, [])

/-- Decode one import thunk: when `thunkVal & flagBit` is zero the source
follows `AddressOfData` to the hint/name record; otherwise the import is
by ordinal and the name stays empty.  `flagBit` is the ordinal-flag
constant the source passes at each call site. -/
def importThunkEntry (b : Buffer) (secs : List SectionHdr) (thunkVal flagBit : Nat) :
    ImportFunc :=
  if thunkVal / flagBit % 2 = 0 then
    { thunk := thunkVal, hint := (importByName b secs thunkVal).1,
      funcName := (importByName b secs thunkVal).2 }
  else { thunk := thunkVal, hint := 0, funcName := [] }

/-- The PE32 thunk loop: walk until a zero thunk; after recording an
entry, stop if advancing the thunk pointer leaves the file or the
function counter reaches the cap. -/
def importFuncs32 (b : Buffer) (secs : List SectionHdr) :
    Nat → Nat → List ImportFunc
  | _, 0 => []
  | tOff, remaining + 1 =>
    if b.read32 tOff = 0 then []
    else
      if ¬ b.isPtrSafe (tOff + 4) then [importThunkEntry b secs (b.read32 tOff) (2 ^ 31)]
      else if remaining = 0 then [importThunkEntry b secs (b.read32 tOff) (2 ^ 31)]
      else importThunkEntry b secs (b.read32 tOff) (2 ^ 31) ::
        importFuncs32 b secs (tOff + 4) remaining

/-- The PE32+ thunk loop.  Note two quirks of the source, both kept:
the thunk-pointer advance is *not* bounds-checked, and the function
counter is incremented (and tested against the cap) twice per
iteration, and the ordinal test uses `IMAGE_ORDINAL_FLAG32` (bit 31)
on the 64-bit thunk. -/
def importFuncs64 (b : Buffer) (secs : List SectionHdr) :
    Nat → Nat → List ImportFunc
  | _, 0 => []
  | tOff, 1 =>
    if b.read64 tOff = 0 then []
    else [importThunkEntry b secs (b.read64 tOff) (2 ^ 31)]
  | tOff, remaining + 2 =>
    if b.read64 tOff = 0 then []
    else
      if remaining = 0 then [importThunkEntry b secs (b.read64 tOff) (2 ^ 31)]
      else importThunkEntry b secs (b.read64 tOff) (2 ^ 31) ::
        importFuncs64 b secs (tOff + 8) remaining

/-- The module name: `RVAToPtr(pImpDesc->Name)` plus the MAX_PATH length
check. -/
def importDllName (b : Buffer) (secs : List SectionHdr) (rva : Nat) : List Nat :=
  match rvaToPtr secs b.size rva with
  | none => []
  | some p => b.cstrMaxPath p

def importModuleMk (b : Buffer) (secs : List SectionHdr) (descOff : Nat)
    (funcs : List ImportFunc) : ImportModule :=
  { off := descOff, oft := b.read32 descOff, ft := b.read32 (descOff + 16),
    dllName := importDllName b secs (b.read32 (descOff + 12)), funcs := funcs }

/-- The PE32 descriptor loop: walk until a zero `Name`; prefer
`OriginalFirstThunk`, falling back to `FirstThunk`; an unresolvable
thunk array breaks the walk; the module counter caps the loop.  The
second component is the value `ParseImport` would return (`false`
aborts before the `HasImport` flag is set — never taken on this
path). -/
def importMods32 (b : Buffer) (secs : List SectionHdr) :
    Nat → Nat → List ImportModule × Bool
  | _, 0 => ([], true)
  | descOff, remMods + 1 =>
    if b.read32 (descOff + 12) = 0 then ([], true)
    else
      if (if b.read32 descOff ≠ 0 then b.read32 descOff else b.read32 (descOff + 16)) = 0 then
        if ¬ b.isPtrSafe (descOff + 20) then ([], true)
        else if remMods = 0 then ([], true)
        else importMods32 b secs (descOff + 20) remMods
      else
        match rvaToPtr secs b.size
            (if b.read32 descOff ≠ 0 then b.read32 descOff else b.read32 (descOff + 16)) with
        | none => ([], true)
        | some tOff =>
          if ¬ b.isPtrSafe (descOff + 20) then
            ([importModuleMk b secs descOff (importFuncs32 b secs tOff 5000)], true)
          else if remMods = 0 then
            ([importModuleMk b secs descOff (importFuncs32 b secs tOff 5000)], true)
          else
            (importModuleMk b secs descOff (importFuncs32 b secs tOff 5000) ::
              (importMods32 b secs (descOff + 20) remMods).1,
             (importMods32 b secs (descOff + 20) remMods).2)

/-- The PE32+ descriptor loop; unlike the PE32 path, an unresolvable
thunk array makes `ParseImport` return `false` (modules already
collected stay recorded but the `HasImport` flag is not set). -/
def importMods64 (b : Buffer) (secs : List SectionHdr) :
    Nat → Nat → List ImportModule × Bool
  | _, 0 => ([], true)
  | descOff, remMods + 1 =>
    if b.read32 (descOff + 12) = 0 then ([], true)
    else
      if (if b.read32 descOff ≠ 0 then b.read32 descOff else b.read32 (descOff + 16)) = 0 then
        if ¬ b.isPtrSafe (descOff + 20) then ([], true)
        else if remMods = 0 then ([], true)
        else importMods64 b secs (descOff + 20) remMods
      else
        match rvaToPtr secs b.size
            (if b.read32 descOff ≠ 0 then b.read32 descOff else b.read32 (descOff + 16)) with
        | none => ([], false)
        | some tOff =>
          if ¬ b.isPtrSafe (descOff + 20) then
            ([importModuleMk b secs descOff (importFuncs64 b secs tOff 5000)], true)
          else if remMods = 0 then
            ([importModuleMk b secs descOff (importFuncs64 b secs tOff 5000)], true)
          else
            (importModuleMk b secs descOff (importFuncs64 b secs tOff 5000) ::
              (importMods64 b secs (descOff + 20) remMods).1,
             (importMods64 b secs (descOff + 20) remMods).2)

/-- `Clibpe::ParseImport`: resolve the first descriptor and run the
bitness-appropriate loop; second component is the `HasImport` flag. -/
def parseImport (b : Buffer) (secs : List SectionHdr) (pe32 pe64 : Bool) (impRVA : Nat) :
    List ImportModule × Bool :=
  match rvaToPtr secs b.size impRVA with
  | none => ([], false)
  | some descOff =>
    if pe32 then importMods32 b secs descOff 1000
    else if pe64 then importMods64 b secs descOff 1000
    else ([], true)

/-- C4 evaluation input: a PE32+ image with one import descriptor whose
single 64-bit thunk is 0x80000070 — ordinal bit 63 *clear*, bit 31 set —
and whose `AddressOfData` resolves to a hint/name record named "F". -/
def impBuf : Buffer :=
  ⟨store32 (store32 (store32 (store32 (store32 (List.replicate 0x80 0)
      0x10 0x40) 0x1C 0x60) 0x40 0x80000070) 0x60 0x44) 0x72 0x46⟩

def impSecs : List SectionHdr :=
  [{ vsize := 0x1000, va := 0x10, ptrRaw := 0x10 },
   { vsize := 0x1000, va := 0x80000000, ptrRaw := 0 }]

set_option maxRecDepth 4000 in
/-- C4: on the PE32+ failing input the decoded thunk 0x80000070 has
ordinal bit 63 clear and its `AddressOfData` resolves to the name "F"
(byte 0x46), so by the claim the import should be recorded by name;
the parser instead records an empty name, because its 64-bit loop
tests `IMAGE_ORDINAL_FLAG32` (bit 31, which is set) instead of
`IMAGE_ORDINAL_FLAG64`.  (The delay-import parser uses the 64-bit flag
correctly, see `delayThunks64`.) -/
theorem C4_ordinal_flag32_in_64bit_loop :
    impBuf.read64 0x40 = 0x80000070 ∧
    0x80000070 / 2 ^ 63 % 2 = 0 ∧
    importByName impBuf impSecs 0x80000070 = (0, [0x46]) ∧
    (importMods64 impBuf impSecs 0x10 1000).1 =
      [{ off := 0x10, oft := 0x40, ft := 0, dllName := [0x44],
         funcs := [{ thunk := 0x80000070, hint := 0, funcName := [] }] }] := by
  refine ⟨by decide, by decide, by decide, ?_⟩
  decide

theorem importFuncs32_len (b : Buffer) (secs : List SectionHdr) :
    ∀ remaining tOff, (importFuncs32 b secs tOff remaining).length ≤ remaining := by
  intro remaining
  induction remaining with
  | zero => intro tOff; simp [importFuncs32]
  | succ r ih =>
    intro tOff
    unfold importFuncs32
    split_ifs <;> simp only [List.length_nil, List.length_cons, List.length_singleton] <;>
      first
        | omega
        | (have hlen := ih (tOff + 4); omega)

theorem importFuncs64_len (b : Buffer) (secs : List SectionHdr) :
    ∀ remaining tOff, (importFuncs64 b secs tOff remaining).length ≤ remaining := by
  intro remaining
  induction remaining using Nat.strong_induction_on with
  | _ remaining ih =>
    match remaining with
    | 0 => intro tOff; simp [importFuncs64]
    | 1 =>
      intro tOff
      unfold importFuncs64
      split_ifs <;> simp
    | r + 2 =>
      intro tOff
      unfold importFuncs64
      split_ifs <;> simp only [List.length_nil, List.length_cons, List.length_singleton] <;>
        first
          | omega
          | (have hlen := ih r (by omega) (tOff + 8); omega)

theorem importMods32_len (b : Buffer) (secs : List SectionHdr) :
    ∀ remMods descOff, (importMods32 b secs descOff remMods).1.length ≤ remMods := by
  intro remMods
  induction remMods with
  | zero => intro descOff; simp [importMods32]
  | succ r ih =>
    intro descOff
    unfold importMods32
    repeat' split
    all_goals first
      | (exact le_trans (ih (descOff + 20)) (by omega))
      | (simp; done)
      | (simp only [List.length_singleton]; omega)
      | (simp only [List.length_cons]
         have := ih (descOff + 20)
         omega)

theorem importMods32_funcs (b : Buffer) (secs : List SectionHdr) :
    ∀ remMods descOff, ∀ m ∈ (importMods32 b secs descOff remMods).1,
      m.funcs.length ≤ 5000 := by
  intro remMods
  induction remMods with
  | zero => intro descOff m hm; simp [importMods32] at hm
  | succ r ih =>
    intro descOff m hm
    unfold importMods32 at hm
    repeat' split at hm
    all_goals first
      | (simp at hm; done)
      | (exact ih _ m hm)
      | (simp only [List.mem_singleton] at hm
         subst hm
         exact importFuncs32_len b secs 5000 _)
      | (simp only [List.mem_cons] at hm
         cases hm with
         | inl he => subst he; exact importFuncs32_len b secs 5000 _
         | inr ht => exact ih _ m ht)

theorem importMods64_len (b : Buffer) (secs : List SectionHdr) :
    ∀ remMods descOff, (importMods64 b secs descOff remMods).1.length ≤ remMods := by
  intro remMods
  induction remMods with
  | zero => intro descOff; simp [importMods64]
  | succ r ih =>
    intro descOff
    unfold importMods64
    repeat' split
    all_goals first
      | (exact le_trans (ih (descOff + 20)) (by omega))
      | (simp; done)
      | (simp only [List.length_singleton]; omega)
      | (simp only [List.length_cons]
         have := ih (descOff + 20)
         omega)

theorem importMods64_funcs (b : Buffer) (secs : List SectionHdr) :
    ∀ remMods descOff, ∀ m ∈ (importMods64 b secs descOff remMods).1,
      m.funcs.length ≤ 5000 := by
  intro remMods
  induction remMods with
  | zero => intro descOff m hm; exact absurd hm (by simp [importMods64])
  | succ r ih =>
    intro descOff m hm
    unfold importMods64 at hm
    repeat' split at hm
    all_goals first
      | (simp at hm; done)
      | (exact ih _ m hm)
      | (simp only [List.mem_singleton] at hm
         subst hm
         exact importFuncs64_len b secs 5000 _)
      | (simp only [List.mem_cons] at hm
         cases hm with
         | inl he => subst he; exact importFuncs64_len b secs 5000 _
         | inr ht => exact ih _ m ht)

/-- C5: the import parser records at most 1000 modules and at most 5000
functions per module, for PE32 and PE32+ alike; when the function cap is
reached (one counter slot left) the loop stops and the entry collected
at the cap is still kept. -/
theorem C5_import_caps (b : Buffer) (secs : List SectionHdr) (pe32 pe64 : Bool) (impRVA : Nat) :
    (parseImport b secs pe32 pe64 impRVA).1.length ≤ 1000 ∧
    (∀ m ∈ (parseImport b secs pe32 pe64 impRVA).1, m.funcs.length ≤ 5000) ∧
    (∀ tOff, importFuncs32 b secs tOff 1 = [] ∨
      importFuncs32 b secs tOff 1 = [importThunkEntry b secs (b.read32 tOff) (2 ^ 31)]) := by
  refine ⟨?_, ?_, ?_⟩
  · unfold parseImport
    split
    · simp
    · split_ifs
      · exact importMods32_len b secs 1000 _
      · exact importMods64_len b secs 1000 _
      · simp
  · unfold parseImport
    split
    · simp
    · split_ifs
      · exact importMods32_funcs b secs 1000 _
      · exact importMods64_funcs b secs 1000 _
      · simp
  · intro tOff
    unfold importFuncs32
    split_ifs <;> simp_all

set_option maxRecDepth 4000 in
/-- C5 (witness): on the concrete import input the parser records one
module with one function, within both caps, and the cap-boundary loop
keeps its last entry. -/
theorem C5_import_caps_witness :
    (parseImport impBuf impSecs false true 0x10).1.length ≤ 1000 ∧
    ({ off := 0x10, oft := 0x40, ft := 0, dllName := [0x44],
       funcs := [{ thunk := 0x80000070, hint := 0, funcName := [] }] } : ImportModule) ∈
      (parseImport impBuf impSecs false true 0x10).1 ∧
    ({ off := 0x10, oft := 0x40, ft := 0, dllName := [0x44],
       funcs := [{ thunk := 0x80000070, hint := 0, funcName := [] }] } : ImportModule).funcs.length
      ≤ 5000 :=
  ⟨(C5_import_caps impBuf impSecs false true 0x10).1, by decide,
    (C5_import_caps impBuf impSecs false true 0x10).2.1 _ (by decide)⟩

/-! ### Export directory (claim C7)

`Clibpe::ParseExport`.  `IMAGE_EXPORT_DIRECTORY` field offsets: Name 12,
NumberOfFunctions 20, NumberOfNames 24, AddressOfFunctions 28,
AddressOfNames 32, AddressOfNameOrdinals 36. -/

structure ExportFunc where
  funcRVA : Nat := 0
  ordinal : Nat := 0
  nameRVA : Nat := 0
  funcName : List Nat := []
  forwarderName : List Nat := []
deriving DecidableEq

structure ExportTable where
  off : Nat := 0
  nFuncs : Nat := 0
  nNames : Nat := 0
  moduleName : List Nat := []
  funcs : List ExportFunc := []
deriving DecidableEq

/-- The ordinal scan: walk `AddressOfNameOrdinals[0..NumberOfNames)`
looking for the ordinal equal to the function index; on a hit take the
parallel name RVA and resolve the name (empty when unresolvable or too
long, but the name RVA is recorded regardless); stop empty-handed when
the ordinal pointer leaves the file or the scan is exhausted. -/
def exportNameScan (b : Buffer) (secs : List SectionHdr) (ordsOff namesOff funcIdx : Nat) :
    Nat → Nat → Nat × List Nat
  | _, 0 => (0, [])
  | j, count + 1 =>
    if ¬ b.isPtrSafe (ordsOff + 2 * j) then (0, [])
    else if b.read16 (ordsOff + 2 * j) = funcIdx then
      (b.read32 (namesOff + 4 * j),
       match rvaToPtr secs b.size (b.read32 (namesOff + 4 * j)) with
       | none => []
       | some p => b.cstrMaxPath p)
    else exportNameScan b secs ordsOff namesOff funcIdx (j + 1) count

/-- The forwarder decision of the source: the function RVA is compared
against the *closed* interval `[dwExportStartRVA, dwExportEndRVA]`
(`>= start && <= end`); inside it the forwarder string at that RVA is
read (MAX_PATH-checked), outside it the name stays empty. -/
def exportForwarder (b : Buffer) (secs : List SectionHdr) (startRVA endRVA funcRVA : Nat) :
    List Nat :=
  if startRVA ≤ funcRVA ∧ funcRVA ≤ endRVA then
    match rvaToPtr secs b.size funcRVA with
    | none => []
    | some p => b.cstrMaxPath p
  else []

/-- The name lookup guarded by `pdwNamesRVA && pwOrdinals`: both arrays
must have resolved for the ordinal scan to run. -/
def exportNamePair (b : Buffer) (secs : List SectionHdr) (ords names : Option Nat)
    (nNames i : Nat) : Nat × List Nat :=
  match ords, names with
  | some oo, some no => exportNameScan b secs oo no i 0 nNames
  | _, _ => (0, [])

/-- The functions loop of `ParseExport`: for each index below
`NumberOfFunctions`, stop when the function-array pointer leaves the
file, skip zero RVAs, and record the entry (name via the ordinal scan
when both name arrays resolved, forwarder via the interval test). -/
def exportFuncsLoop (b : Buffer) (secs : List SectionHdr) (funcsOff : Nat)
    (ords names : Option Nat) (nNames startRVA endRVA : Nat) :
    Nat → Nat → List ExportFunc
  | _, 0 => []
  | i, count + 1 =>
    if ¬ b.isPtrSafe (funcsOff + 4 * i) then []
    else if b.read32 (funcsOff + 4 * i) = 0 then
      exportFuncsLoop b secs funcsOff ords names nNames startRVA endRVA (i + 1) count
    else
      { funcRVA := b.read32 (funcsOff + 4 * i), ordinal := i,
        nameRVA := (exportNamePair b secs ords names nNames i).1,
        funcName := (exportNamePair b secs ords names nNames i).2,
        forwarderName :=
          exportForwarder b secs startRVA endRVA (b.read32 (funcsOff + 4 * i)) } ::
        exportFuncsLoop b secs funcsOff ords names nNames startRVA endRVA (i + 1) count

/-- `Clibpe::ParseExport` given the export directory RVA and size;
`none` when the directory or its function array does not resolve.
`dwExportEndRVA = dwExportStartRVA + size` is a `DWORD` sum. -/
def parseExport (b : Buffer) (secs : List SectionHdr) (startRVA dirSize : Nat) :
    Option ExportTable :=
  match rvaToPtr secs b.size startRVA with
  | none => none
  | some eOff =>
    match rvaToPtr secs b.size (b.read32 (eOff + 28)) with
    | none => none
    | some funcsOff =>
      some { off := eOff, nFuncs := b.read32 (eOff + 20), nNames := b.read32 (eOff + 24),
             moduleName := (match rvaToPtr secs b.size (b.read32 (eOff + 12)) with
               | none => []
               | some p => b.cstrMaxPath p),
             funcs := exportFuncsLoop b secs funcsOff
                        (rvaToPtr secs b.size (b.read32 (eOff + 36)))
                        (rvaToPtr secs b.size (b.read32 (eOff + 32)))
                        (b.read32 (eOff + 24)) startRVA ((startRVA + dirSize) % 2 ^ 32)
                        0 (b.read32 (eOff + 20)) }

/-- C7 counterexample input: a single identity-mapped section; export
directory at RVA 0x10 with size 0x30, one function whose RVA 0x40 equals
start + size exactly, and a one-byte forwarder string "X" at RVA 0x40. -/
def expBuf : Buffer :=
  ⟨store32 (store32 (store32 (List.replicate 0x60 0)
      0x24 1) 0x2C 0x50) 0x50 0x40 |>.set 0x40 0x58⟩

def expSecs : List SectionHdr := [{ vsize := 0x1000, va := 0x10, ptrRaw := 0x10 }]

set_option maxRecDepth 4000 in
/-- C7 (counterexample): the function RVA 0x40 lies *outside* the
half-open interval [0x10, 0x10 + 0x30) of the claim, yet the parser
records the nonempty forwarder name "X" for it: the source compares with
`<= dwExportEndRVA`, a closed interval. -/
theorem C7_forwarder_boundary_counterexample :
    (¬ (0x10 ≤ 0x40 ∧ 0x40 < 0x10 + 0x30)) ∧
    (parseExport expBuf expSecs 0x10 0x30).map (fun t => t.funcs.map (fun f => f.forwarderName))
      = some [[0x58]] := by
  exact ⟨by decide, by decide⟩

theorem exportFuncsLoop_forwarder (b : Buffer) (secs : List SectionHdr) (funcsOff : Nat)
    (ords names : Option Nat) (nNames startRVA endRVA : Nat) :
    ∀ count i, ∀ f ∈ exportFuncsLoop b secs funcsOff ords names nNames startRVA endRVA i count,
      f.forwarderName = exportForwarder b secs startRVA endRVA f.funcRVA := by
  intro count
  induction count with
  | zero => intro i f hf; simp [exportFuncsLoop] at hf
  | succ c ih =>
    intro i f hf
    unfold exportFuncsLoop at hf
    split at hf
    · simp at hf
    · split at hf
      · exact ih (i + 1) f hf
      · rcases List.mem_cons.mp hf with he | ht
        · subst he; rfl
        · exact ih (i + 1) f ht

/-- C7 (amended): provided `start + size` does not overflow 32 bits,
every function the export parser records carries
`forwarderName = exportForwarder … start (start+size) funcRVA`; i.e. the
function is treated as a forwarder (the string at its RVA is read,
MAX_PATH-capped) if and only if its RVA lies in the *closed* interval
[start, start + size], and a function whose RVA lies outside that closed
interval gets an empty forwarder name. -/
theorem C7_export_forwarder (b : Buffer) (secs : List SectionHdr) (startRVA dirSize : Nat)
    (hw : startRVA + dirSize < 2 ^ 32) :
    ∀ t, parseExport b secs startRVA dirSize = some t →
      ∀ f ∈ t.funcs,
        f.forwarderName = exportForwarder b secs startRVA (startRVA + dirSize) f.funcRVA ∧
        (¬ (startRVA ≤ f.funcRVA ∧ f.funcRVA ≤ startRVA + dirSize) →
          f.forwarderName = []) := by
  intro t ht f hf
  have hmod : (startRVA + dirSize) % 2 ^ 32 = startRVA + dirSize := Nat.mod_eq_of_lt hw
  unfold parseExport at ht
  split at ht
  · exact absurd ht (by simp)
  · split at ht
    · exact absurd ht (by simp)
    · cases ht
      simp only [hmod] at hf
      have h1 := exportFuncsLoop_forwarder b secs _ _ _ _ startRVA (startRVA + dirSize)
        _ 0 f hf
      refine ⟨h1, fun hout => ?_⟩
      rw [h1]
      unfold exportForwarder
      rw [if_neg hout]

/-- The export table the counterexample buffer parses to. -/
def expTblC : ExportTable :=
  { off := 0x10, nFuncs := 1, nNames := 0, moduleName := [],
    funcs := [{ funcRVA := 0x40, ordinal := 0, nameRVA := 0, funcName := [],
                forwarderName := [0x58] }] }

set_option maxRecDepth 4000 in
/-- C7 (witness): the amended theorem applied to the concrete export
model: the single recorded function's forwarder name is exactly the
closed-interval forwarder read. -/
theorem C7_export_forwarder_witness :
    (0x10 + 0x30 < 2 ^ 32 ∧ parseExport expBuf expSecs 0x10 0x30 = some expTblC ∧
      expTblC.funcs.get? 0 = some { funcRVA := 0x40, ordinal := 0, nameRVA := 0,
                                    funcName := [], forwarderName := [0x58] }) ∧
    ({ funcRVA := 0x40, ordinal := 0, nameRVA := 0, funcName := [],
       forwarderName := [0x58] } : ExportFunc).forwarderName =
      exportForwarder expBuf expSecs 0x10 (0x10 + 0x30) 0x40 :=
  ⟨⟨by decide, by decide, by decide⟩,
    (C7_export_forwarder expBuf expSecs 0x10 0x30 (by decide) expTblC (by decide)
      { funcRVA := 0x40, ordinal := 0, nameRVA := 0, funcName := [],
        forwarderName := [0x58] } (by decide)).1⟩

/-! ### Delay-import directory (claim C8)

`Clibpe::ParseDelayImport`.  An `IMAGE_DELAYLOAD_DESCRIPTOR` is 32
bytes: Attributes 0, DllNameRVA 4, ModuleHandleRVA 8,
ImportAddressTableRVA 12, ImportNameTableRVA 16,
BoundImportAddressTableRVA 20, UnloadInformationTableRVA 24,
TimeDateStamp 28. -/

/-- The four parallel thunks recorded per delay-import function, with the
field names of the source's `PEDelayImportThunk`.  NOTE (kept from the
source, libpe.cpp:1637-1640): the `ImportAddressTable` field is assigned
`*pThunk32Name` — the *ImportNameTable* entry — and the
`ImportNameTable` field is assigned the *ImportAddressTable* entry. -/
structure DelayThunks where
  importAddressTable : Nat := 0
  importNameTable : Nat := 0
  boundImportAddressTable : Nat := 0
  unloadInformationTable : Nat := 0
deriving DecidableEq

structure DelayFunc where
  thunks : DelayThunks := {}
  hint : Nat := 0
  funcName : List Nat := []
deriving DecidableEq

structure DelayModule where
  off : Nat := 0
  dllName : List Nat := []
  funcs : List DelayFunc := []
deriving DecidableEq

/-- Advance failure for an optional parallel-array pointer:
`if (pThunk…) if (!IsPtrSafe(++pThunk…)) break;`. -/
def optAdvanceFails (b : Buffer) (o : Option Nat) (step : Nat) : Bool :=
  match o with
  | none => false
  | some p => ¬ b.isPtrSafe (p + step)

def optAdv (o : Option Nat) (step : Nat) : Option Nat := o.map (fun p => p + step)

def optRead32 (b : Buffer) (o : Option Nat) : Nat :=
  match o with
  | none => 0
  | some p => b.read32 p

def optRead64 (b : Buffer) (o : Option Nat) : Nat :=
  match o with
  | none => 0
  | some p => b.read64 p

/-- The 32-bit per-function record (the swapped assignment of the source
is kept verbatim: `importAddressTable := INT entry`,
`importNameTable := IAT entry`; absent arrays substitute a zeroed
thunk). -/
def delayThunks32 (b : Buffer) (tOff : Nat) (iat bnd unl : Option Nat) : DelayThunks :=
  { importAddressTable := b.read32 tOff,
    importNameTable := optRead32 b iat,
    boundImportAddressTable := optRead32 b bnd,
    unloadInformationTable := optRead32 b unl }

def delayThunks64 (b : Buffer) (tOff : Nat) (iat bnd unl : Option Nat) : DelayThunks :=
  { importAddressTable := b.read64 tOff,
    importNameTable := optRead64 b iat,
    boundImportAddressTable := optRead64 b bnd,
    unloadInformationTable := optRead64 b unl }

/-- Hint/name decode of a delay-import thunk; the 32-bit loop tests
`IMAGE_ORDINAL_FLAG32` (bit 31). -/
def delayHintName32 (b : Buffer) (secs : List SectionHdr) (tOff : Nat) : Nat × List Nat :=
  if b.read32 tOff / 2 ^ 31 % 2 = 0 then importByName b secs (b.read32 tOff) else (0, [])

/-- Hint/name decode of a 64-bit delay-import thunk; unlike `ParseImport`
this loop tests `IMAGE_ORDINAL_FLAG64` (bit 63). -/
def delayHintName64 (b : Buffer) (secs : List SectionHdr) (tOff : Nat) : Nat × List Nat :=
  if b.read64 tOff / 2 ^ 63 % 2 = 0 then importByName b secs (b.read64 tOff) else (0, [])

/-- The 32-bit delay-import thunk loop: walk the ImportNameTable until a
zero thunk, advancing the three optional parallel tables in step; any
failed advance stops the loop keeping what was collected.  `fuel`
bounds the recursion (each iteration requires the next name-thunk
pointer to stay in the file, so `b.size` suffices). -/
def delayFuncs32 (b : Buffer) (secs : List SectionHdr) :
    Nat → Nat → Option Nat → Option Nat → Option Nat → List DelayFunc
  | 0, _, _, _, _ => []
  | fuel + 1, tOff, iat, bnd, unl =>
    if b.read32 tOff = 0 then []
    else
      if ¬ b.isPtrSafe (tOff + 4) then
        [{ thunks := delayThunks32 b tOff iat bnd unl,
           hint := (delayHintName32 b secs tOff).1, funcName := (delayHintName32 b secs tOff).2 }]
      else if optAdvanceFails b iat 4 then
        [{ thunks := delayThunks32 b tOff iat bnd unl,
           hint := (delayHintName32 b secs tOff).1, funcName := (delayHintName32 b secs tOff).2 }]
      else if optAdvanceFails b bnd 4 then
        [{ thunks := delayThunks32 b tOff iat bnd unl,
           hint := (delayHintName32 b secs tOff).1, funcName := (delayHintName32 b secs tOff).2 }]
      else if optAdvanceFails b unl 4 then
        [{ thunks := delayThunks32 b tOff iat bnd unl,
           hint := (delayHintName32 b secs tOff).1, funcName := (delayHintName32 b secs tOff).2 }]
      else
        { thunks := delayThunks32 b tOff iat bnd unl,
          hint := (delayHintName32 b secs tOff).1, funcName := (delayHintName32 b secs tOff).2 } ::
        delayFuncs32 b secs fuel (tOff + 4) (optAdv iat 4) (optAdv bnd 4) (optAdv unl 4)

def delayFuncs64 (b : Buffer) (secs : List SectionHdr) :
    Nat → Nat → Option Nat → Option Nat → Option Nat → List DelayFunc
  | 0, _, _, _, _ => []
  | fuel + 1, tOff, iat, bnd, unl =>
    if b.read64 tOff = 0 then []
    else
      if ¬ b.isPtrSafe (tOff + 8) then
        [{ thunks := delayThunks64 b tOff iat bnd unl,
           hint := (delayHintName64 b secs tOff).1, funcName := (delayHintName64 b secs tOff).2 }]
      else if optAdvanceFails b iat 8 then
        [{ thunks := delayThunks64 b tOff iat bnd unl,
           hint := (delayHintName64 b secs tOff).1, funcName := (delayHintName64 b secs tOff).2 }]
      else if optAdvanceFails b bnd 8 then
        [{ thunks := delayThunks64 b tOff iat bnd unl,
           hint := (delayHintName64 b secs tOff).1, funcName := (delayHintName64 b secs tOff).2 }]
      else if optAdvanceFails b unl 8 then
        [{ thunks := delayThunks64 b tOff iat bnd unl,
           hint := (delayHintName64 b secs tOff).1, funcName := (delayHintName64 b secs tOff).2 }]
      else
        { thunks := delayThunks64 b tOff iat bnd unl,
          hint := (delayHintName64 b secs tOff).1, funcName := (delayHintName64 b secs tOff).2 } ::
        delayFuncs64 b secs fuel (tOff + 8) (optAdv iat 8) (optAdv bnd 8) (optAdv unl 8)

/-- The 32-bit delay-import descriptor loop: walk until a zero
`DllNameRVA`; a zero ImportNameTableRVA advances to the next
descriptor; an unresolvable ImportNameTable breaks the walk. -/
def delayMods32 (b : Buffer) (secs : List SectionHdr) : Nat → Nat → List DelayModule
  | 0, _ => []
  | fuel + 1, descOff =>
    if b.read32 (descOff + 4) = 0 then []
    else if b.read32 (descOff + 16) = 0 then
      if ¬ b.isPtrSafe (descOff + 32) then [] else delayMods32 b secs fuel (descOff + 32)
    else
      match rvaToPtr secs b.size (b.read32 (descOff + 16)) with
      | none => []
      | some tOff =>
        if ¬ b.isPtrSafe (descOff + 32) then
          [{ off := descOff, dllName := importDllName b secs (b.read32 (descOff + 4)),
             funcs := delayFuncs32 b secs b.size tOff
                        (rvaToPtr secs b.size (b.read32 (descOff + 12)))
                        (rvaToPtr secs b.size (b.read32 (descOff + 20)))
                        (rvaToPtr secs b.size (b.read32 (descOff + 24))) }]
        else
          { off := descOff, dllName := importDllName b secs (b.read32 (descOff + 4)),
            funcs := delayFuncs32 b secs b.size tOff
                       (rvaToPtr secs b.size (b.read32 (descOff + 12)))
                       (rvaToPtr secs b.size (b.read32 (descOff + 20)))
                       (rvaToPtr secs b.size (b.read32 (descOff + 24))) } ::
          delayMods32 b secs fuel (descOff + 32)

def delayMods64 (b : Buffer) (secs : List SectionHdr) : Nat → Nat → List DelayModule
  | 0, _ => []
  | fuel + 1, descOff =>
    if b.read32 (descOff + 4) = 0 then []
    else if b.read32 (descOff + 16) = 0 then
      if ¬ b.isPtrSafe (descOff + 32) then [] else delayMods64 b secs fuel (descOff + 32)
    else
      match rvaToPtr secs b.size (b.read32 (descOff + 16)) with
      | none => []
      | some tOff =>
        if ¬ b.isPtrSafe (descOff + 32) then
          [{ off := descOff, dllName := importDllName b secs (b.read32 (descOff + 4)),
             funcs := delayFuncs64 b secs b.size tOff
                        (rvaToPtr secs b.size (b.read32 (descOff + 12)))
                        (rvaToPtr secs b.size (b.read32 (descOff + 20)))
                        (rvaToPtr secs b.size (b.read32 (descOff + 24))) }]
        else
          { off := descOff, dllName := importDllName b secs (b.read32 (descOff + 4)),
            funcs := delayFuncs64 b secs b.size tOff
                       (rvaToPtr secs b.size (b.read32 (descOff + 12)))
                       (rvaToPtr secs b.size (b.read32 (descOff + 20)))
                       (rvaToPtr secs b.size (b.read32 (descOff + 24))) } ::
          delayMods64 b secs fuel (descOff + 32)

/-- C8 evaluation input: one delay descriptor, ImportNameTable entry
0x1111, ImportAddressTable entry 0x2222. -/
def dlyBuf : Buffer :=
  ⟨store32 (store32 (store32 (store32 (store32 (store32 (List.replicate 0x80 0)
      0x14 0x70) 0x1C 0x50) 0x20 0x40) 0x40 0x1111) 0x50 0x2222) 0x70 0x44⟩

def dlySecs : List SectionHdr := [{ vsize := 0x1000, va := 0x10, ptrRaw := 0x10 }]

set_option maxRecDepth 4000 in
/-- C8: the ImportNameTable's entry 0 is 0x1111 and the
ImportAddressTable's entry 0 is 0x2222, but the recorded function's
`importNameTable` thunk is 0x2222 and its `importAddressTable` thunk is
0x1111 — the two assignments in the source are swapped relative to the
field names (and to the claim); the bound/unload thunks substitute
zeroes for the absent arrays as claimed. -/
theorem C8_delay_thunks_swapped :
    dlyBuf.read32 0x40 = 0x1111 ∧ dlyBuf.read32 0x50 = 0x2222 ∧
    delayMods32 dlyBuf dlySecs dlyBuf.size 0x10 =
      [{ off := 0x10, dllName := [0x44],
         funcs := [{ thunks := { importAddressTable := 0x1111, importNameTable := 0x2222,
                                 boundImportAddressTable := 0, unloadInformationTable := 0 },
                     hint := 0, funcName := [] }] }] := by
  refine ⟨by decide, by decide, ?_⟩
  decide

/-! ### TLS and relocations (claim C9) -/

/-- The TLS callback walk: `while (*p) { push_back(*p); if
(!IsPtrSafe(++p)) { vec.clear(); break; } }`.  `none` models the
`clear()`: a failed advance discards *everything* collected. -/
def tlsCbLoop (b : Buffer) : Nat → Nat → Option (List Nat)
  | 0, _ => some []
  | fuel + 1, pOff =>
    if b.read32 pOff = 0 then some []
    else if ¬ b.isPtrSafe (pOff + 4) then none
    else (tlsCbLoop b fuel (pOff + 4)).map (fun rest => b.read32 pOff :: rest)

def tlsCallbacks (b : Buffer) (fuel pOff : Nat) : List Nat :=
  (tlsCbLoop b fuel pOff).getD []

structure TLSRec where
  off : Nat := 0
  addressOfCallBacks : Nat := 0
  callbacks : List Nat := []
deriving DecidableEq

/-- `Clibpe::ParseTLS` given the directory RVA: read the 32- or 64-bit
TLS directory (`AddressOfCallBacks` at offset 12 resp. 24), convert the
callback VA to an RVA by subtracting the image base (64-bit wrapping
subtraction), resolve it and walk the callbacks. -/
def parseTLS (b : Buffer) (secs : List SectionHdr) (pe32 pe64 : Bool)
    (imageBase tlsRVA : Nat) : Option TLSRec :=
  if tlsRVA = 0 then none
  else if pe32 then
    match rvaToPtr secs b.size tlsRVA with
    | none => none
    | some off =>
      some { off := off, addressOfCallBacks := b.read32 (off + 12),
             callbacks :=
               match rvaToPtr secs b.size
                   ((b.read32 (off + 12) + 2 ^ 64 - imageBase % 2 ^ 64) % 2 ^ 64) with
               | none => []
               | some p => tlsCallbacks b b.size p }
  else if pe64 then
    match rvaToPtr secs b.size tlsRVA with
    | none => none
    | some off =>
      some { off := off, addressOfCallBacks := b.read64 (off + 24),
             callbacks :=
               match rvaToPtr secs b.size
                   ((b.read64 (off + 24) + 2 ^ 64 - imageBase % 2 ^ 64) % 2 ^ 64) with
               | none => []
               | some p => tlsCallbacks b b.size p }
  else none

structure RelocEntry where
  off : Nat := 0
  relType : Nat := 0
  value : Nat := 0   -- low 12 bits, or the full second word of a HIGHADJ pair
deriving DecidableEq

structure RelocBlock where
  off : Nat := 0
  va : Nat := 0
  sizeOfBlock : Nat := 0
  entries : List RelocEntry := []
deriving DecidableEq

/-- The 16-bit entry walk of one relocation block.  A failed bounds
check at the top of an iteration stops the loop keeping what was
collected, but a failed advance to the second slot of a HIGHADJ pair
(`type 4`) executes `vecRelocs.clear()` — `none` here — discarding the
whole block's entries.  A HIGHADJ pair consumes two slots (the source
decrements the remaining-entry count). -/
def relocEntriesLoop (b : Buffer) : Nat → Nat → Option (List RelocEntry)
  | _, 0 => some []
  | wOff, remaining + 1 =>
    if ¬ b.isPtrSafe wOff then some []
    else if b.read16 wOff / 2 ^ 12 = 4 then
      if ¬ b.isPtrSafe (wOff + 2) then none
      else
        match remaining with
        | 0 => some [{ off := wOff, relType := 4, value := b.read16 wOff % 2 ^ 12 },
                     { off := wOff + 2, relType := 4, value := b.read16 (wOff + 2) }]
        | r + 1 =>
          (relocEntriesLoop b (wOff + 4) r).map
            (fun rest =>
              { off := wOff, relType := 4, value := b.read16 wOff % 2 ^ 12 } ::
              { off := wOff + 2, relType := 4, value := b.read16 (wOff + 2) } :: rest)
    else
      (relocEntriesLoop b (wOff + 2) remaining).map
        (fun rest =>
          { off := wOff, relType := b.read16 wOff / 2 ^ 12,
            value := b.read16 wOff % 2 ^ 12 } :: rest)

def relocBlockEntries (b : Buffer) (wOff n : Nat) : List RelocEntry :=
  (relocEntriesLoop b wOff n).getD []

/-- The relocation block walk: each block records its header and its
(possibly cleared) entries; a `SizeOfBlock` below the 8-byte header
records an empty block and terminates; advancing by `SizeOfBlock` past
the file keeps all blocks collected so far.  (`IsSumOverflow` on the
block pointer cannot wrap in this model, see the module docstring.) -/
def relocBlocks (b : Buffer) : Nat → Nat → List RelocBlock
  | 0, _ => []
  | fuel + 1, off =>
    if b.read32 (off + 4) = 0 ∨ b.read32 off = 0 then []
    else if b.read32 (off + 4) < 8 then
      [{ off := off, va := b.read32 off, sizeOfBlock := b.read32 (off + 4), entries := [] }]
    else
      { off := off, va := b.read32 off, sizeOfBlock := b.read32 (off + 4),
        entries := relocBlockEntries b (off + 8) ((b.read32 (off + 4) - 8) / 2) } ::
      (if ¬ b.isPtrSafe (off + b.read32 (off + 4)) then []
       else relocBlocks b fuel (off + b.read32 (off + 4)))

/-- `Clibpe::ParseRelocations` given the directory RVA: a first block
with a zero `VirtualAddress` or `SizeOfBlock` is recorded as a single
empty block; otherwise the block walk runs. -/
def parseRelocations (b : Buffer) (secs : List SectionHdr) (relocRVA : Nat) :
    Option (List RelocBlock) :=
  match rvaToPtr secs b.size relocRVA with
  | none => none
  | some off =>
    if b.read32 (off + 4) = 0 ∨ b.read32 off = 0 then
      some [{ off := off, va := b.read32 off, sizeOfBlock := b.read32 (off + 4),
              entries := [] }]
    else some (relocBlocks b b.size off)

/-! ### Exceptions, security, debug and bound-import entry loops
(claim C9's general retention clause) -/

/-- `IMAGE_RUNTIME_FUNCTION_ENTRY` (12 bytes). -/
structure ExceptionEntry where
  off : Nat := 0
  beginAddr : Nat := 0
  endAddr : Nat := 0
  unwindData : Nat := 0
deriving DecidableEq

/-- The `ParseExceptions` entry loop: stop — keeping what was collected —
when the entry pointer leaves the file. -/
def excEntriesLoop (b : Buffer) : Nat → Nat → List ExceptionEntry
  | _, 0 => []
  | eOff, n + 1 =>
    if ¬ b.isPtrSafe eOff then []
    else
      { off := eOff, beginAddr := b.read32 eOff, endAddr := b.read32 (eOff + 4),
        unwindData := b.read32 (eOff + 8) } :: excEntriesLoop b (eOff + 12) n

/-- `Clibpe::ParseExceptions` given the directory RVA and size:
`dwEntries = size / sizeof(RUNTIME_FUNCTION)`, with the source's quirk
of adding the entry *count* (not the byte size) to the pointer in the
up-front bounds check. -/
def parseExceptions (b : Buffer) (secs : List SectionHdr) (rva sz : Nat) :
    Option (List ExceptionEntry) :=
  match rvaToPtr secs b.size rva with
  | none => none
  | some p =>
    if sz / 12 = 0 ∨ ¬ b.isPtrSafe (p + sz / 12) then none
    else some (excEntriesLoop b p (sz / 12))

/-- `WIN_CERTIFICATE` header (the body is not recorded). -/
structure SecurityEntry where
  off : Nat := 0
  dwLength : Nat := 0
  wRevision : Nat := 0
  wCertType : Nat := 0
deriving DecidableEq

/-- `dwLength += (8 - (dwLength & 7)) & 7` in `DWORD` arithmetic. -/
def certAlign (len : Nat) : Nat := (len + (8 - len % 8) % 8) % 2 ^ 32

/-- The `ParseSecurity` certificate walk:
`dwCertSize = dwLength - offsetof(WIN_CERTIFICATE, bCertificate)` is a
`DWORD` subtraction (it wraps for `dwLength` < 8, failing the bounds
check); each record is committed before the 8-aligned advance is
checked.  `fuel` bounds the recursion (`b.size` suffices: a passing
advance moves forward within the file). -/
def securityLoop (b : Buffer) : Nat → Nat → Nat → List SecurityEntry
  | 0, _, _ => []
  | fuel + 1, start, endOff =>
    if ¬ (start < endOff) then []
    else if ¬ b.isPtrSafe (start + (b.read32 start + 2 ^ 32 - 8) % 2 ^ 32) then []
    else
      { off := start, dwLength := b.read32 start, wRevision := b.read16 (start + 4),
        wCertType := b.read16 (start + 6) } ::
      (if ¬ b.isPtrSafe (start + certAlign (b.read32 start)) then []
       else securityLoop b fuel (start + certAlign (b.read32 start)) endOff)

/-- `Clibpe::ParseSecurity`: the directory's "VirtualAddress" is a raw
file offset; zero offset or size, or a failed bounds check on the
directory span, aborts (the `IsSumOverflow` checks on pointer-plus-DWORD
sums cannot wrap in this model, see the module docstring). -/
def parseSecurity (b : Buffer) (secOff secSize : Nat) : Option (List SecurityEntry) :=
  if secOff = 0 ∨ secSize = 0 then none
  else if ¬ b.isPtrSafe secOff then none
  else if ¬ b.isPtrSafe (secOff + secSize) true then none
  else some (securityLoop b b.size secOff (secOff + secSize))

/-- `GetTData<DWORD>`: zero when the read would pass the end of the file
(`ullOffset > GetDataSize() - sizeof(T)`); for a file smaller than the
read the source's unsigned subtraction wraps and it reads out of bounds
— the model's defaulting reads return the same zero-extended bytes. -/
def getTData32 (b : Buffer) (off : Nat) : Nat :=
  if b.size < 4 then b.read32 off
  else if off + 4 ≤ b.size then b.read32 off else 0

/-- The CodeView PDB path: up to MAX_PATH bytes read via `GetTData<BYTE>`
until a NUL (an out-of-range byte reads as zero, ending the string). -/
def pdbString (b : Buffer) : Nat → Nat → List Nat
  | _, 0 => []
  | o, n + 1 => if b.byte o = 0 then [] else b.byte o :: pdbString b (o + 1) n

structure DebugEntry where
  off : Nat := 0
  dbgType : Nat := 0
  header : List Nat := []
  pdbName : List Nat := []
deriving DecidableEq

/-- The six DWORDs read from `PointerToRawData`. -/
def debugHdrDwords (b : Buffer) (raw : Nat) : List Nat :=
  (List.range 6).map (fun k => getTData32 b (raw + 4 * k))

/-- For `IMAGE_DEBUG_TYPE_CODEVIEW` (type 2): "RSDS" puts the PDB path
24 bytes into the payload, "NB10" 16 bytes; other signatures record no
path. -/
def debugPdbName (b : Buffer) (raw dbgType hdr0 : Nat) : List Nat :=
  if dbgType = 2 then
    if hdr0 = 0x53445352 then pdbString b (raw + 24) 260
    else if hdr0 = 0x3031424E then pdbString b (raw + 16) 260
    else []
  else []

def debugEntryMk (b : Buffer) (dOff : Nat) : DebugEntry :=
  { off := dOff, dbgType := b.read32 (dOff + 12),
    header := debugHdrDwords b (b.read32 (dOff + 24)),
    pdbName := debugPdbName b (b.read32 (dOff + 24)) (b.read32 (dOff + 12))
                 (getTData32 b (b.read32 (dOff + 24))) }

/-- The `ParseDebug` entry loop (`IMAGE_DEBUG_DIRECTORY` is 28 bytes:
Type at 12, PointerToRawData at 24): each entry is committed, then the
advance is checked. -/
def debugEntriesLoop (b : Buffer) : Nat → Nat → List DebugEntry
  | _, 0 => []
  | dOff, n + 1 =>
    if ¬ b.isPtrSafe (dOff + 28) then [debugEntryMk b dOff]
    else debugEntryMk b dOff :: debugEntriesLoop b (dOff + 28) n

/-- `IMAGE_BOUND_FORWARDER_REF` (8 bytes: TimeDateStamp, OffsetModuleName
u16, Reserved u16). -/
structure BoundForwarder where
  off : Nat := 0
  timeDateStamp : Nat := 0
  offsetModuleName : Nat := 0
  fwdName : List Nat := []
deriving DecidableEq

structure BoundModule where
  off : Nat := 0
  timeDateStamp : Nat := 0
  offsetModuleName : Nat := 0
  numForwarderRefs : Nat := 0
  moduleName : List Nat := []
  forwarders : List BoundForwarder := []
deriving DecidableEq

/-- A bound-import name: `IsPtrSafe(szName)` then the MAX_PATH length
check. -/
def boundName (b : Buffer) (off : Nat) : List Nat :=
  if b.isPtrSafe off then b.cstrMaxPath off else []

def boundFwdMk (b : Buffer) (fwdOff descOff : Nat) : BoundForwarder :=
  { off := fwdOff, timeDateStamp := b.read32 fwdOff,
    offsetModuleName := b.read16 (fwdOff + 4),
    fwdName := boundName b (descOff + b.read16 (fwdOff + 4)) }

/-- The `ParseBoundImport` forwarder loop.  The source *advances the
descriptor pointer itself* by 8 bytes per forwarder
(libpe.cpp:1579) and re-reads `NumberOfModuleForwarderRefs` from the
moved descriptor in the loop condition; the final descriptor offset is
returned along with the collected forwarders.  Each record is committed
before the two advances are checked.  `fuel` bounds the recursion
(65536 suffices: the index is strictly increasing against a 16-bit
count). -/
def boundFwdLoop (b : Buffer) : Nat → Nat → Nat → Nat → List BoundForwarder × Nat
  | 0, _, _, descOff => ([], descOff)
  | fuel + 1, i, fwdOff, descOff =>
    if ¬ (i < b.read16 (descOff + 6)) then ([], descOff)
    else
      if ¬ b.isPtrSafe (fwdOff + 8) then ([boundFwdMk b fwdOff descOff], descOff)
      else if ¬ b.isPtrSafe (descOff + 8) then ([boundFwdMk b fwdOff descOff], descOff + 8)
      else
        (boundFwdMk b fwdOff descOff ::
           (boundFwdLoop b fuel (i + 1) (fwdOff + 8) (descOff + 8)).1,
         (boundFwdLoop b fuel (i + 1) (fwdOff + 8) (descOff + 8)).2)

/-- The bound-import module record, read from the (possibly moved) final
descriptor. -/
def boundModuleMk (b : Buffer) (fwds : List BoundForwarder) (fd : Nat) : BoundModule :=
  { off := fd, timeDateStamp := b.read32 fd, offsetModuleName := b.read16 (fd + 4),
    numForwarderRefs := b.read16 (fd + 6),
    moduleName := boundName b (fd + b.read16 (fd + 4)), forwarders := fwds }

/-- The `ParseBoundImport` descriptor loop: walk until
`TimeDateStamp = 0`; the module is committed, then the advance from the
final (moved) descriptor is checked. -/
def boundModsLoop (b : Buffer) : Nat → Nat → List BoundModule
  | 0, _ => []
  | fuel + 1, descOff =>
    if b.read32 descOff = 0 then []
    else if ¬ b.isPtrSafe (descOff + 8) then []
    else
      if ¬ b.isPtrSafe ((boundFwdLoop b 65536 0 (descOff + 8) descOff).2 + 8) then
        [boundModuleMk b (boundFwdLoop b 65536 0 (descOff + 8) descOff).1
           (boundFwdLoop b 65536 0 (descOff + 8) descOff).2]
      else
        boundModuleMk b (boundFwdLoop b 65536 0 (descOff + 8) descOff).1
          (boundFwdLoop b 65536 0 (descOff + 8) descOff).2 ::
        boundModsLoop b fuel ((boundFwdLoop b 65536 0 (descOff + 8) descOff).2 + 8)

/-- `Clibpe::ParseBoundImport` given the directory RVA. -/
def parseBoundImport (b : Buffer) (secs : List SectionHdr) (rva : Nat) :
    Option (List BoundModule) :=
  match rvaToPtr secs b.size rva with
  | none => none
  | some descOff => some (boundModsLoop b b.size descOff)

/-- C9 counterexample input: a TLS directory whose callback array holds
the nonzero callback 5 as its first entry, with the file ending right
after it, so the advance check fails after the callback was collected. -/
def tlsBuf : Buffer :=
  ⟨store32 (store32 (List.replicate 0x24 0) 0x1C 0x400020) 0x20 5⟩

def tlsSecs : List SectionHdr := [{ vsize := 0x1000, va := 0x10, ptrRaw := 0x10 }]

set_option maxRecDepth 4000 in
/-- C9 (counterexample): the TLS callback walk collects the nonzero
callback 5, then the pointer-advance bounds check fails and
`vecTLSCallbacks.clear()` runs: the recorded callback list is empty, not
the collected `[5]` the claim requires. -/
theorem C9_tls_clear_counterexample :
    tlsBuf.read32 0x20 = 5 ∧
    parseTLS tlsBuf tlsSecs true false 0x400000 0x10 =
      some { off := 0x10, addressOfCallBacks := 0x400020, callbacks := [] } := by
  exact ⟨by decide, by decide⟩

/-! ### NT headers, section tables and the load orchestrator (claim C1)

`Clibpe::LoadPe` / `ParseNTFileOptHeader` and the presence-flag plumbing
of the individual directory parsers.  Header geometry:
`e_lfanew` at 0x3C; NT signature at `e_lfanew`;
FileHeader at `e_lfanew + 4` (NumberOfSections +2, PointerToSymbolTable
+8, NumberOfSymbols +12, SizeOfOptionalHeader +16); OptionalHeader at
`e_lfanew + 24` (Magic +0; PE32: ImageBase +28, NumberOfRvaAndSizes +92,
DataDirectory +96; PE32+: ImageBase +24, NumberOfRvaAndSizes +108,
DataDirectory +112); `sizeof(IMAGE_NT_HEADERS32) = 248`. -/

def lfanew (b : Buffer) : Nat := b.read32 0x3C

/-- `ParseNTFileOptHeader`'s bounds and signature checks.  `e_lfanew` is
a signed `LONG`: a value ≥ 2^31 sign-extends to a huge address and fails
`IsPtrSafe`. -/
def ntHdrOk (b : Buffer) : Bool :=
  lfanew b < 2 ^ 31 ∧ lfanew b + 248 < b.size ∧ b.read32 (lfanew b) = 0x4550

def ntMagic (b : Buffer) : Nat := b.read16 (lfanew b + 24)

def isPE32 (b : Buffer) : Bool := ntHdrOk b ∧ ntMagic b = 0x10B

def isPE64 (b : Buffer) : Bool := ntHdrOk b ∧ ntMagic b = 0x20B

/-- `ParseNTFileOptHeader` succeeds: valid span, "PE\0\0" signature, and
a known OptionalHeader magic. -/
def parseNTOk (b : Buffer) : Bool := isPE32 b ∨ isPE64 b

def secTableBase (b : Buffer) : Nat := lfanew b + 24 + b.read16 (lfanew b + 20)

def numSections (b : Buffer) : Nat := b.read16 (lfanew b + 6)

def readSecHdr (b : Buffer) (off : Nat) : SectionHdr :=
  { name8 := (List.range 8).map (fun k => b.byte (off + k)),
    vsize := b.read32 (off + 8), va := b.read32 (off + 12),
    rawSize := b.read32 (off + 16), ptrRaw := b.read32 (off + 20) }

/-- The in-bounds prefix of the raw section-header table, as walked by
`GetSecHdrFromRVA` and `GetSecHdrFromName` (each stops at the first
header whose 40-byte span leaves the file). -/
def rawSecGo (b : Buffer) : Nat → Nat → List SectionHdr
  | _, 0 => []
  | off, n + 1 =>
    if ¬ b.isPtrSafe (off + 40) then []
    else readSecHdr b off :: rawSecGo b (off + 40) n

def rawSecTable (b : Buffer) : List SectionHdr :=
  rawSecGo b (secTableBase b) (numSections b)

/-- `RVAToPtr` against the raw section table. -/
def rvaToPtrBuf (b : Buffer) (rva : Nat) : Option Nat :=
  rvaToPtr (rawSecTable b) b.size rva

def digitsPrefix (l : List Nat) : List Nat :=
  l.takeWhile (fun c => decide (0x30 ≤ c ∧ c ≤ 0x39))

def digitsVal (l : List Nat) : Nat :=
  (digitsPrefix l).foldl (fun a c => a * 10 + (c - 0x30)) 0

def isSpaceByte (c : Nat) : Bool := c = 0x20 ∨ (9 ≤ c ∧ c ≤ 13)

/-- `strtol(s, &end, 10)`: skip whitespace, read one optional sign, then
decimal digits.  `none` when no digits follow (`pEnd == pStart`: no
conversion was performed) or the value falls outside the `LONG` range
(`ERANGE`); otherwise the signed value. -/
def strtolParse (l : List Nat) : Option Int :=
  match l.dropWhile isSpaceByte with
  | [] => none
  | c :: rest =>
    if c = 0x2D then
      if digitsPrefix rest = [] then none
      else if (2 ^ 31 : Int) < (digitsVal rest : Int) then none
      else some (-(digitsVal rest : Int))
    else if c = 0x2B then
      if digitsPrefix rest = [] then none
      else if (2 ^ 31 - 1 : Int) < (digitsVal rest : Int) then none
      else some (digitsVal rest)
    else
      if digitsPrefix (c :: rest) = [] then none
      else if (2 ^ 31 - 1 : Int) < (digitsVal (c :: rest) : Int) then none
      else some (digitsVal (c :: rest))

/-- A `ParseSectionsHeaders` entry is skipped (`continue`) when its name
begins with a slash but `strtol` parses nothing (`pEnd == pStart`) or
overflows a `LONG` (`ERANGE`); a parsed value — including a signed or
whitespace-prefixed one — records the entry. -/
def secEntrySkipped (b : Buffer) (off : Nat) : Bool :=
  b.byte off = 0x2F ∧ strtolParse (b.cstr (off + 1)) = none

/-- `ParseSectionsHeaders`'s collected entries (the resolved long names
from the COFF string table are not modelled; no claim concerns them). -/
def parsedSecsGo (b : Buffer) : Nat → Nat → List SectionHdr
  | _, 0 => []
  | off, n + 1 =>
    if ¬ b.isPtrSafe (off + 40) then []
    else if secEntrySkipped b off then parsedSecsGo b (off + 40) n
    else readSecHdr b off :: parsedSecsGo b (off + 40) n

def parsedSections (b : Buffer) : List SectionHdr :=
  parsedSecsGo b (secTableBase b) (numSections b)

def optHdrOff (b : Buffer) : Nat := lfanew b + 24

/-- `GetDirEntryRVA` / `GetDirEntrySize`. -/
def dirRVA (b : Buffer) (k : Nat) : Nat :=
  if isPE32 b then b.read32 (optHdrOff b + 96 + 8 * k)
  else if isPE64 b then b.read32 (optHdrOff b + 112 + 8 * k)
  else 0

def dirSize (b : Buffer) (k : Nat) : Nat :=
  if isPE32 b then b.read32 (optHdrOff b + 96 + 8 * k + 4)
  else if isPE64 b then b.read32 (optHdrOff b + 112 + 8 * k + 4)
  else 0

def numRvaSizes (b : Buffer) : Nat :=
  if isPE32 b then b.read32 (optHdrOff b + 92)
  else if isPE64 b then b.read32 (optHdrOff b + 108)
  else 0

def imageBase (b : Buffer) : Nat :=
  if isPE32 b then b.read32 (optHdrOff b + 28)
  else if isPE64 b then b.read64 (optHdrOff b + 24)
  else 0

/-- `GetSecHdrFromName(".debug")`: `strncmp` over 8 bytes agrees with
comparing the first 7 bytes against ".debug\0". -/
def debugSecByName (b : Buffer) : Option SectionHdr :=
  (rawSecTable b).find?
    (fun s => s.name8.take 7 = [0x2E, 0x64, 0x65, 0x62, 0x75, 0x67, 0x00])

/-- `sizeof(IMAGE_LOAD_CONFIG_DIRECTORY32)` — the concrete value depends
on the SDK winnt.h version the source compiles against; the presence
logic only needs some fixed span length. -/
def sizeofLCD32 : Nat := 192

/-- Per-directory presence flags of `PEFILEINFO` (Has… fields). -/
structure DirFlags where
  hasDataDirs : Bool := false
  hasSections : Bool := false
  hasExport : Bool := false
  hasImport : Bool := false
  hasResource : Bool := false
  hasException : Bool := false
  hasSecurity : Bool := false
  hasReloc : Bool := false
  hasDebug : Bool := false
  hasArchitect : Bool := false
  hasGlobalPtr : Bool := false
  hasTLS : Bool := false
  hasLoadCFG : Bool := false
  hasBoundImp : Bool := false
  hasIAT : Bool := false
  hasDelayImp : Bool := false
  hasCOMDescr : Bool := false
deriving DecidableEq

/-- `ParseDebug`'s early-return conditions (flag is set after the entry
loop).  The `.debug`-section shortcut multiplies the directory size by
`sizeof(IMAGE_DEBUG_DIRECTORY)` (28) — a `DWORD` multiply, hence the
`% 2 ^ 32` — and takes the section's raw pointer; otherwise the RVA must
resolve via the section table. -/
def hasDebugF (b : Buffer) : Bool :=
  if dirRVA b 6 = 0 then false
  else
    match debugSecByName b with
    | some s =>
      if s.va = dirRVA b 6 then
        decide (dirSize b 6 * 28 % 2 ^ 32 / 28 ≠ 0) &&
          b.isPtrSafe (s.ptrRaw + dirSize b 6 * 28 % 2 ^ 32)
      else
        match getSecFromRVA (rawSecTable b) (dirRVA b 6), rvaToPtrBuf b (dirRVA b 6) with
        | some _, some p =>
          decide (dirSize b 6 / 28 ≠ 0) && b.isPtrSafe (p + dirSize b 6)
        | _, _ => false
    | none =>
      match getSecFromRVA (rawSecTable b) (dirRVA b 6), rvaToPtrBuf b (dirRVA b 6) with
      | some _, some p =>
        decide (dirSize b 6 / 28 ≠ 0) && b.isPtrSafe (p + dirSize b 6)
      | _, _ => false

/-- The presence flags the directory-parsing block of `LoadPe` computes,
each from the corresponding parser's early-return conditions
(`IsSumOverflow` on pointer-plus-DWORD sums cannot wrap in this model;
see the module docstring). -/
def parseDirFlags (b : Buffer) : DirFlags :=
  { hasDataDirs := numRvaSizes b ≠ 0,
    hasSections := parsedSections b ≠ [],
    hasExport :=
      (match rvaToPtrBuf b (dirRVA b 0) with
       | none => false
       | some eOff => (rvaToPtrBuf b (b.read32 (eOff + 28))).isSome),
    hasImport := (parseImport b (rawSecTable b) (isPE32 b) (isPE64 b) (dirRVA b 1)).2,
    hasResource :=
      (match rvaToPtrBuf b (dirRVA b 2) with
       | none => false
       | some r => (parseResources b (rawSecTable b) r).isSome),
    hasException :=
      (match rvaToPtrBuf b (dirRVA b 3) with
       | none => false
       | some p =>
         decide (dirSize b 3 / 12 ≠ 0) && b.isPtrSafe (p + dirSize b 3 / 12)),
    hasSecurity :=
      decide (dirRVA b 4 ≠ 0) && decide (dirSize b 4 ≠ 0) &&
        b.isPtrSafe (dirRVA b 4) && b.isPtrSafe (dirRVA b 4 + dirSize b 4) true,
    hasReloc := (rvaToPtrBuf b (dirRVA b 5)).isSome,
    hasDebug := hasDebugF b,
    hasArchitect := decide (dirRVA b 7 ≠ 0) && (rvaToPtrBuf b (dirRVA b 7)).isSome,
    hasGlobalPtr := (rvaToPtrBuf b (dirRVA b 8)).isSome,
    hasTLS := (parseTLS b (rawSecTable b) (isPE32 b) (isPE64 b) (imageBase b)
                 (dirRVA b 9)).isSome,
    hasLoadCFG :=
      (if isPE32 b then
        (match rvaToPtrBuf b (dirRVA b 10) with
         | none => false
         | some p => b.isPtrSafe (p + sizeofLCD32))
       else if isPE64 b then
        (match rvaToPtrBuf b (dirRVA b 10) with
         | none => false
         | some p => b.isPtrSafe (p + 8))   -- sizeof(PIMAGE_LOAD_CONFIG_DIRECTORY64): a pointer
       else false),
    hasBoundImp := (rvaToPtrBuf b (dirRVA b 11)).isSome,
    hasIAT := (rvaToPtrBuf b (dirRVA b 12)).isSome,
    hasDelayImp := (rvaToPtrBuf b (dirRVA b 13)).isSome,
    hasCOMDescr := (rvaToPtrBuf b (dirRVA b 14)).isSome }

inductive LoadResult where
  | ok
  | errSizeTooSmall
  | errNoDosHeader
deriving DecidableEq

structure LoadOutcome where
  code : LoadResult
  hasDosHdr : Bool := false
  richEntries : List RichEntry := []
  hasRichHdr : Bool := false
  hasNTHdr : Bool := false
  dirFlags : DirFlags := {}
deriving DecidableEq

/-- `Clibpe::LoadPe(span)`: fail with `ERR_FILE_SIZESMALL` below
`sizeof(IMAGE_DOS_HEADER)` (64) bytes; fail with `ERR_FILE_NODOSHDR`
when `e_magic` (the 16-bit word at offset 0) is not 0x5A4D; otherwise
parse the Rich stub and, only if NT parsing succeeds, the directory
block — and return `PEOK` either way. -/
def loadPe (b : Buffer) : LoadOutcome :=
  if b.size < 64 then { code := .errSizeTooSmall }
  else if b.read16 0 ≠ 0x5A4D then { code := .errNoDosHeader }
  else if parseNTOk b then
    { code := .ok, hasDosHdr := true, richEntries := (parseRichHeader b).1,
      hasRichHdr := (parseRichHeader b).2, hasNTHdr := true, dirFlags := parseDirFlags b }
  else
    { code := .ok, hasDosHdr := true, richEntries := (parseRichHeader b).1,
      hasRichHdr := (parseRichHeader b).2, hasNTHdr := false, dirFlags := {} }

/-- C1: `load` returns `ErrSizeTooSmall` iff the buffer is shorter than a
64-byte DOS header; otherwise it returns `ErrNoDosHeader` iff the 16-bit
word at offset 0 is not 0x5A4D; in every other case it returns `Ok`, the
DOS header is recorded, and when the NT headers are absent or malformed
(`ParseNTFileOptHeader` fails) the NT flag and every directory presence
flag stay false. -/
theorem C1_load_result (b : Buffer) :
    ((loadPe b).code = .errSizeTooSmall ↔ b.size < 64) ∧
    (64 ≤ b.size → ((loadPe b).code = .errNoDosHeader ↔ b.read16 0 ≠ 0x5A4D)) ∧
    (64 ≤ b.size → b.read16 0 = 0x5A4D →
      (loadPe b).code = .ok ∧ (loadPe b).hasDosHdr = true) ∧
    (64 ≤ b.size → b.read16 0 = 0x5A4D → parseNTOk b = false →
      (loadPe b).hasNTHdr = false ∧ (loadPe b).dirFlags = {}) := by
  unfold loadPe
  by_cases hsz : b.size < 64
  · rw [if_pos hsz]
    refine ⟨by simp [hsz], fun h => absurd hsz (by omega), fun h => absurd hsz (by omega),
      fun h => absurd hsz (by omega)⟩
  · rw [if_neg hsz]
    by_cases hmz : b.read16 0 ≠ 0x5A4D
    · rw [if_pos hmz]
      refine ⟨by simp [hsz], fun _ => by simp [hmz], fun _ hm => absurd hm hmz,
        fun _ hm => absurd hm hmz⟩
    · rw [if_neg hmz]
      by_cases hnt : parseNTOk b
      · rw [if_pos hnt]
        exact ⟨by simp [hsz], fun _ => by simp [hmz], fun _ _ => ⟨rfl, rfl⟩,
          fun _ _ hf => absurd hnt (by simp [hf])⟩
      · rw [if_neg hnt]
        exact ⟨by simp [hsz], fun _ => by simp [hmz], fun _ _ => ⟨rfl, rfl⟩,
          fun _ _ _ => ⟨rfl, rfl⟩⟩

/-- C1 witness input: 64 bytes with a valid "MZ" magic and nothing else
(boundary scenario: `e_lfanew = 0`, so the NT header span check fails). -/
def mzBuf : Buffer := ⟨0x4D :: 0x5A :: List.replicate 62 0⟩

set_option maxRecDepth 4000 in
/-- C1 (witness): the 64-byte "MZ" buffer loads `Ok` with the DOS header
recorded and the NT and directory flags all false; and a 60-byte buffer
is `ErrSizeTooSmall`, while 64 zero bytes are `ErrNoDosHeader`. -/
theorem C1_load_result_witness :
    (64 ≤ mzBuf.size ∧ mzBuf.read16 0 = 0x5A4D ∧ parseNTOk mzBuf = false) ∧
    ((loadPe mzBuf).code = .ok ∧ (loadPe mzBuf).hasDosHdr = true) ∧
    ((loadPe mzBuf).hasNTHdr = false ∧ (loadPe mzBuf).dirFlags = {}) ∧
    (loadPe ⟨List.replicate 60 0⟩).code = .errSizeTooSmall ∧
    (loadPe ⟨List.replicate 64 0⟩).code = .errNoDosHeader :=
  ⟨⟨by decide, by decide, by decide⟩,
    (C1_load_result mzBuf).2.2.1 (by decide) (by decide),
    (C1_load_result mzBuf).2.2.2 (by decide) (by decide) (by decide),
    ((C1_load_result ⟨List.replicate 60 0⟩).1).mpr (by decide),
    ((C1_load_result ⟨List.replicate 64 0⟩).2.1 (by decide)).mpr (by decide)⟩

/-! ### Claim C9: failure containment across the directory parsers -/

/-- C9 (amended): for every directory parser, an internal failure
mid-walk aborts the containing loop with the partially collected
container committed — the offending entry is skipped (or, where the
source checks the advance only after recording, kept) — except that the
TLS callback walk clears the whole collected callback list when its
pointer advance fails (conjuncts 1-2), and a relocation block's entry
walk clears that block's collected entries when the advance to a HIGHADJ
second slot fails (conjunct 3) — the block itself and previously
collected blocks are still committed (conjunct 4).  The remaining
conjuncts establish the commit discipline loop by loop: every recorded
entry is cons-ed ahead of the rest of the walk (so no later failure can
remove it) and every abort returns exactly what was collected:
sections (5-7), export functions (8-9), import functions and modules,
PE32 and PE32+ (10-15; the PE32+ thunk-array resolution failure returns
with the flag down but the modules already cons-ed stay recorded),
resource entries at all three levels (16-21), exception entries (22-23),
security certificates (24-26), debug entries (27-28), bound-import
forwarders and modules (29-33), and delay-import functions and
descriptors (34-37).  (Allocation-failure handling is outside this
model.) -/
theorem C9_failure_containment (b : Buffer) :
    -- (1) TLS: a failed advance right after the first collected callback
    -- clears the list
    (∀ fuel pOff, b.read32 pOff ≠ 0 → ¬ b.isPtrSafe (pOff + 4) = true →
      tlsCallbacks b (fuel + 1) pOff = []) ∧
    -- (2) TLS: a clear anywhere later in the walk clears everything
    (∀ fuel pOff, b.read32 pOff ≠ 0 → b.isPtrSafe (pOff + 4) = true →
      tlsCbLoop b fuel (pOff + 4) = none → tlsCallbacks b (fuel + 1) pOff = []) ∧
    -- (3) reloc: a failed advance to a HIGHADJ second slot clears the
    -- block's entries
    (∀ remaining wOff, b.isPtrSafe wOff = true → b.read16 wOff / 2 ^ 12 = 4 →
      ¬ b.isPtrSafe (wOff + 2) = true →
      relocBlockEntries b wOff (remaining + 1) = []) ∧
    -- (4) reloc: each block is committed ahead of the rest of the walk
    (∀ fuel off, ¬ (b.read32 (off + 4) = 0 ∨ b.read32 off = 0) →
      ¬ b.read32 (off + 4) < 8 →
      relocBlocks b (fuel + 1) off =
        { off := off, va := b.read32 off, sizeOfBlock := b.read32 (off + 4),
          entries := relocBlockEntries b (off + 8) ((b.read32 (off + 4) - 8) / 2) } ::
        (if ¬ b.isPtrSafe (off + b.read32 (off + 4)) then []
         else relocBlocks b fuel (off + b.read32 (off + 4)))) ∧
    -- (5-7) section headers: abort keeps the collected prefix; an
    -- unparsable "/" name is skipped; a recorded header is committed
    (∀ n off, ¬ b.isPtrSafe (off + 40) = true → parsedSecsGo b off (n + 1) = []) ∧
    (∀ n off, b.isPtrSafe (off + 40) = true → secEntrySkipped b off = true →
      parsedSecsGo b off (n + 1) = parsedSecsGo b (off + 40) n) ∧
    (∀ n off, b.isPtrSafe (off + 40) = true → ¬ secEntrySkipped b off = true →
      parsedSecsGo b off (n + 1) = readSecHdr b off :: parsedSecsGo b (off + 40) n) ∧
    -- (8-9) export functions
    (∀ secs funcsOff ords names nn s e c i, ¬ b.isPtrSafe (funcsOff + 4 * i) = true →
      exportFuncsLoop b secs funcsOff ords names nn s e i (c + 1) = []) ∧
    (∀ secs funcsOff ords names nn s e c i, b.isPtrSafe (funcsOff + 4 * i) = true →
      b.read32 (funcsOff + 4 * i) ≠ 0 →
      ∃ f, exportFuncsLoop b secs funcsOff ords names nn s e i (c + 1) =
        f :: exportFuncsLoop b secs funcsOff ords names nn s e (i + 1) c) ∧
    -- (10-11) PE32 import functions
    (∀ secs r tOff, b.read32 tOff ≠ 0 → ¬ b.isPtrSafe (tOff + 4) = true →
      ∃ f, importFuncs32 b secs tOff (r + 1) = [f]) ∧
    (∀ secs r tOff, b.read32 tOff ≠ 0 → b.isPtrSafe (tOff + 4) = true → r ≠ 0 →
      ∃ f, importFuncs32 b secs tOff (r + 1) = f :: importFuncs32 b secs (tOff + 4) r) ∧
    -- (12-13) PE32 import modules
    (∀ secs r descOff tOff, b.read32 (descOff + 12) ≠ 0 →
      ¬ (if b.read32 descOff ≠ 0 then b.read32 descOff else b.read32 (descOff + 16)) = 0 →
      rvaToPtr secs b.size
        (if b.read32 descOff ≠ 0 then b.read32 descOff else b.read32 (descOff + 16)) =
        some tOff →
      ¬ b.isPtrSafe (descOff + 20) = true →
      ∃ m, importMods32 b secs descOff (r + 1) = ([m], true)) ∧
    (∀ secs r descOff tOff, b.read32 (descOff + 12) ≠ 0 →
      ¬ (if b.read32 descOff ≠ 0 then b.read32 descOff else b.read32 (descOff + 16)) = 0 →
      rvaToPtr secs b.size
        (if b.read32 descOff ≠ 0 then b.read32 descOff else b.read32 (descOff + 16)) =
        some tOff →
      b.isPtrSafe (descOff + 20) = true → r ≠ 0 →
      ∃ m, importMods32 b secs descOff (r + 1) =
        (m :: (importMods32 b secs (descOff + 20) r).1,
         (importMods32 b secs (descOff + 20) r).2)) ∧
    -- (14-15) PE32+ import modules: resolution failure drops the flag
    -- but modules already committed (cons-ed, conjunct 15) stay recorded
    (∀ secs r descOff, b.read32 (descOff + 12) ≠ 0 →
      ¬ (if b.read32 descOff ≠ 0 then b.read32 descOff else b.read32 (descOff + 16)) = 0 →
      rvaToPtr secs b.size
        (if b.read32 descOff ≠ 0 then b.read32 descOff else b.read32 (descOff + 16)) =
        none →
      importMods64 b secs descOff (r + 1) = ([], false)) ∧
    (∀ secs r descOff tOff, b.read32 (descOff + 12) ≠ 0 →
      ¬ (if b.read32 descOff ≠ 0 then b.read32 descOff else b.read32 (descOff + 16)) = 0 →
      rvaToPtr secs b.size
        (if b.read32 descOff ≠ 0 then b.read32 descOff else b.read32 (descOff + 16)) =
        some tOff →
      b.isPtrSafe (descOff + 20) = true → r ≠ 0 →
      ∃ m, importMods64 b secs descOff (r + 1) =
        (m :: (importMods64 b secs (descOff + 20) r).1,
         (importMods64 b secs (descOff + 20) r).2)) ∧
    -- (16-17) resource root entries
    (∀ secs rootOff c eOff, 2 ^ 31 ≤ b.read32 (eOff + 4) →
      parse2Dir b secs rootOff (b.read32 (eOff + 4)) = none →
      parseRootEntries b secs rootOff eOff (c + 1) = []) ∧
    (∀ secs rootOff c eOff l2, 2 ^ 31 ≤ b.read32 (eOff + 4) →
      parse2Dir b secs rootOff (b.read32 (eOff + 4)) = some l2 →
      b.isPtrSafe (eOff + 8) = true →
      ∃ e, parseRootEntries b secs rootOff eOff (c + 1) =
        e :: parseRootEntries b secs rootOff (eOff + 8) c) ∧
    -- (18-19) resource level-2 entries
    (∀ secs rootOff lvl2Off c eOff, 2 ^ 31 ≤ b.read32 (eOff + 4) →
      parse3Dir b secs rootOff lvl2Off (b.read32 (eOff + 4)) = none →
      parse2Entries b secs rootOff lvl2Off eOff (c + 1) = []) ∧
    (∀ secs rootOff lvl2Off c eOff l3, 2 ^ 31 ≤ b.read32 (eOff + 4) →
      parse3Dir b secs rootOff lvl2Off (b.read32 (eOff + 4)) = some l3 →
      b.isPtrSafe (eOff + 8) = true →
      ∃ e, parse2Entries b secs rootOff lvl2Off eOff (c + 1) =
        e :: parse2Entries b secs rootOff lvl2Off (eOff + 8) c) ∧
    -- (20-21) resource level-3 entries
    (∀ secs rootOff c eOff, ¬ b.isPtrSafe (eOff + 8) = true →
      ∃ e, parse3Entries b secs rootOff eOff (c + 1) = [e]) ∧
    (∀ secs rootOff c eOff, b.isPtrSafe (eOff + 8) = true →
      ∃ e, parse3Entries b secs rootOff eOff (c + 1) =
        e :: parse3Entries b secs rootOff (eOff + 8) c) ∧
    -- (22-23) exception entries
    (∀ n eOff, ¬ b.isPtrSafe eOff = true → excEntriesLoop b eOff (n + 1) = []) ∧
    (∀ n eOff, b.isPtrSafe eOff = true →
      ∃ x, excEntriesLoop b eOff (n + 1) = x :: excEntriesLoop b (eOff + 12) n) ∧
    -- (24-26) security certificates
    (∀ fuel start endOff, start < endOff →
      ¬ b.isPtrSafe (start + (b.read32 start + 2 ^ 32 - 8) % 2 ^ 32) = true →
      securityLoop b (fuel + 1) start endOff = []) ∧
    (∀ fuel start endOff, start < endOff →
      b.isPtrSafe (start + (b.read32 start + 2 ^ 32 - 8) % 2 ^ 32) = true →
      ¬ b.isPtrSafe (start + certAlign (b.read32 start)) = true →
      ∃ x, securityLoop b (fuel + 1) start endOff = [x]) ∧
    (∀ fuel start endOff, start < endOff →
      b.isPtrSafe (start + (b.read32 start + 2 ^ 32 - 8) % 2 ^ 32) = true →
      b.isPtrSafe (start + certAlign (b.read32 start)) = true →
      ∃ x, securityLoop b (fuel + 1) start endOff =
        x :: securityLoop b fuel (start + certAlign (b.read32 start)) endOff) ∧
    -- (27-28) debug entries
    (∀ n dOff, ¬ b.isPtrSafe (dOff + 28) = true →
      debugEntriesLoop b dOff (n + 1) = [debugEntryMk b dOff]) ∧
    (∀ n dOff, b.isPtrSafe (dOff + 28) = true →
      debugEntriesLoop b dOff (n + 1) = debugEntryMk b dOff :: debugEntriesLoop b (dOff + 28) n) ∧
    -- (29-31) bound-import forwarders
    (∀ fuel i fwdOff descOff, i < b.read16 (descOff + 6) →
      ¬ b.isPtrSafe (fwdOff + 8) = true →
      boundFwdLoop b (fuel + 1) i fwdOff descOff = ([boundFwdMk b fwdOff descOff], descOff)) ∧
    (∀ fuel i fwdOff descOff, i < b.read16 (descOff + 6) →
      b.isPtrSafe (fwdOff + 8) = true → ¬ b.isPtrSafe (descOff + 8) = true →
      boundFwdLoop b (fuel + 1) i fwdOff descOff =
        ([boundFwdMk b fwdOff descOff], descOff + 8)) ∧
    (∀ fuel i fwdOff descOff, i < b.read16 (descOff + 6) →
      b.isPtrSafe (fwdOff + 8) = true → b.isPtrSafe (descOff + 8) = true →
      boundFwdLoop b (fuel + 1) i fwdOff descOff =
        (boundFwdMk b fwdOff descOff ::
           (boundFwdLoop b fuel (i + 1) (fwdOff + 8) (descOff + 8)).1,
         (boundFwdLoop b fuel (i + 1) (fwdOff + 8) (descOff + 8)).2)) ∧
    -- (32-33) bound-import modules
    (∀ fuel descOff, b.read32 descOff ≠ 0 → b.isPtrSafe (descOff + 8) = true →
      ¬ b.isPtrSafe ((boundFwdLoop b 65536 0 (descOff + 8) descOff).2 + 8) = true →
      boundModsLoop b (fuel + 1) descOff =
        [boundModuleMk b (boundFwdLoop b 65536 0 (descOff + 8) descOff).1
          (boundFwdLoop b 65536 0 (descOff + 8) descOff).2]) ∧
    (∀ fuel descOff, b.read32 descOff ≠ 0 → b.isPtrSafe (descOff + 8) = true →
      b.isPtrSafe ((boundFwdLoop b 65536 0 (descOff + 8) descOff).2 + 8) = true →
      boundModsLoop b (fuel + 1) descOff =
        boundModuleMk b (boundFwdLoop b 65536 0 (descOff + 8) descOff).1
          (boundFwdLoop b 65536 0 (descOff + 8) descOff).2 ::
        boundModsLoop b fuel ((boundFwdLoop b 65536 0 (descOff + 8) descOff).2 + 8)) ∧
    -- (34-35) delay-import functions (PE32 path)
    (∀ secs fuel tOff iat bnd unl, b.read32 tOff ≠ 0 → ¬ b.isPtrSafe (tOff + 4) = true →
      ∃ f, delayFuncs32 b secs (fuel + 1) tOff iat bnd unl = [f]) ∧
    (∀ secs fuel tOff iat bnd unl, b.read32 tOff ≠ 0 → b.isPtrSafe (tOff + 4) = true →
      ¬ optAdvanceFails b iat 4 = true → ¬ optAdvanceFails b bnd 4 = true →
      ¬ optAdvanceFails b unl 4 = true →
      ∃ f, delayFuncs32 b secs (fuel + 1) tOff iat bnd unl =
        f :: delayFuncs32 b secs fuel (tOff + 4) (optAdv iat 4) (optAdv bnd 4) (optAdv unl 4)) ∧
    -- (36-37) delay-import descriptors (PE32 path)
    (∀ secs fuel descOff, b.read32 (descOff + 4) ≠ 0 → b.read32 (descOff + 16) ≠ 0 →
      rvaToPtr secs b.size (b.read32 (descOff + 16)) = none →
      delayMods32 b secs (fuel + 1) descOff = []) ∧
    (∀ secs fuel descOff tOff, b.read32 (descOff + 4) ≠ 0 → b.read32 (descOff + 16) ≠ 0 →
      rvaToPtr secs b.size (b.read32 (descOff + 16)) = some tOff →
      b.isPtrSafe (descOff + 32) = true →
      ∃ m, delayMods32 b secs (fuel + 1) descOff = m :: delayMods32 b secs fuel (descOff + 32)) := by
  refine ⟨?_, ?_, ?_, ?_, ?_, ?_, ?_, ?_, ?_, ?_, ?_, ?_, ?_, ?_, ?_, ?_, ?_, ?_, ?_, ?_,
    ?_, ?_, ?_, ?_, ?_, ?_, ?_, ?_, ?_, ?_, ?_, ?_, ?_, ?_, ?_, ?_, ?_⟩
  · intro fuel pOff h0 hsafe
    unfold tlsCallbacks tlsCbLoop
    rw [if_neg h0, if_pos (by simpa using hsafe)]
    rfl
  · intro fuel pOff h0 hsafe hnone
    unfold tlsCallbacks tlsCbLoop
    rw [if_neg h0, if_neg (by simp [hsafe]), hnone]
    rfl
  · intro remaining wOff hsafe htype hadv
    unfold relocBlockEntries relocEntriesLoop
    rw [if_neg (by simp [hsafe]), if_pos htype, if_pos (by simpa using hadv)]
    rfl
  · intro fuel off hcond hsz
    unfold relocBlocks
    rw [if_neg hcond, if_neg hsz]
    congr 1
    split_ifs with h <;> cases fuel <;> rfl
  · intro n off hsafe
    unfold parsedSecsGo
    rw [if_pos hsafe]
  · intro n off hsafe hskip
    unfold parsedSecsGo
    rw [if_neg (by simp [hsafe]), if_pos hskip]
    cases n <;> rfl
  · intro n off hsafe hskip
    unfold parsedSecsGo
    rw [if_neg (by simp [hsafe]), if_neg hskip]
    cases n <;> rfl
  · intro secs funcsOff ords names nn s e c i hsafe
    unfold exportFuncsLoop
    rw [if_pos hsafe]
  · intro secs funcsOff ords names nn s e c i hsafe h0
    unfold exportFuncsLoop
    rw [if_neg (by simp [hsafe]), if_neg h0]
    exact ⟨_, by cases c <;> rfl⟩
  · intro secs r tOff h0 hsafe
    unfold importFuncs32
    rw [if_neg h0, if_pos hsafe]
    exact ⟨_, rfl⟩
  · intro secs r tOff h0 hsafe hr
    unfold importFuncs32
    rw [if_neg h0, if_neg (by simp [hsafe]), if_neg hr]
    exact ⟨_, by cases r <;> rfl⟩
  · intro secs r descOff tOff hname hsel hres hsafe
    unfold importMods32
    rw [if_neg hname, if_neg hsel, hres]
    dsimp only
    rw [if_pos hsafe]
    exact ⟨_, rfl⟩
  · intro secs r descOff tOff hname hsel hres hsafe hr
    unfold importMods32
    rw [if_neg hname, if_neg hsel, hres]
    dsimp only
    rw [if_neg (by simp [hsafe]), if_neg hr]
    exact ⟨_, by cases r <;> rfl⟩
  · intro secs r descOff hname hsel hres
    unfold importMods64
    rw [if_neg hname, if_neg hsel, hres]
  · intro secs r descOff tOff hname hsel hres hsafe hr
    unfold importMods64
    rw [if_neg hname, if_neg hsel, hres]
    dsimp only
    rw [if_neg (by simp [hsafe]), if_neg hr]
    exact ⟨_, by cases r <;> rfl⟩
  · intro secs rootOff c eOff hdir h2
    unfold parseRootEntries
    rw [if_pos hdir, h2]
  · intro secs rootOff c eOff l2 hdir h2 hsafe
    unfold parseRootEntries
    rw [if_pos hdir, h2]
    dsimp only
    rw [if_pos hsafe]
    exact ⟨_, by cases c <;> rfl⟩
  · intro secs rootOff lvl2Off c eOff hdir h3
    unfold parse2Entries
    rw [if_pos hdir, h3]
  · intro secs rootOff lvl2Off c eOff l3 hdir h3 hsafe
    unfold parse2Entries
    rw [if_pos hdir, h3]
    dsimp only
    rw [if_pos hsafe]
    exact ⟨_, by cases c <;> rfl⟩
  · intro secs rootOff c eOff hsafe
    unfold parse3Entries
    rw [if_neg (by simp [hsafe])]
    exact ⟨_, rfl⟩
  · intro secs rootOff c eOff hsafe
    unfold parse3Entries
    rw [if_pos hsafe]
    exact ⟨_, by cases c <;> rfl⟩
  · intro n eOff hsafe
    unfold excEntriesLoop
    rw [if_pos hsafe]
  · intro n eOff hsafe
    unfold excEntriesLoop
    rw [if_neg (by simp [hsafe])]
    exact ⟨_, by cases n <;> rfl⟩
  · intro fuel start endOff hlt hcs
    unfold securityLoop
    rw [if_neg (not_not_intro hlt), if_pos hcs]
  · intro fuel start endOff hlt hcs hadv
    unfold securityLoop
    rw [if_neg (not_not_intro hlt), if_neg (not_not_intro hcs), if_pos hadv]
    exact ⟨_, rfl⟩
  · intro fuel start endOff hlt hcs hadv
    unfold securityLoop
    rw [if_neg (not_not_intro hlt), if_neg (not_not_intro hcs), if_neg (not_not_intro hadv)]
    exact ⟨_, by cases fuel <;> rfl⟩
  · intro n dOff hsafe
    unfold debugEntriesLoop
    rw [if_pos hsafe]
  · intro n dOff hsafe
    unfold debugEntriesLoop
    rw [if_neg (by simp [hsafe])]
    cases n <;> rfl
  · intro fuel i fwdOff descOff hcount hsafe
    unfold boundFwdLoop
    rw [if_neg (not_not_intro hcount), if_pos hsafe]
  · intro fuel i fwdOff descOff hcount hf hd
    unfold boundFwdLoop
    rw [if_neg (not_not_intro hcount), if_neg (by simp [hf]), if_pos hd]
  · intro fuel i fwdOff descOff hcount hf hd
    unfold boundFwdLoop
    rw [if_neg (not_not_intro hcount), if_neg (by simp [hf]), if_neg (by simp [hd])]
    cases fuel <;> rfl
  · intro fuel descOff htds hfsafe hadv
    unfold boundModsLoop
    rw [if_neg htds, if_neg (by simp [hfsafe]), if_pos hadv]
  · intro fuel descOff htds hfsafe hadv
    unfold boundModsLoop
    rw [if_neg htds, if_neg (by simp [hfsafe]), if_neg (by simp [hadv])]
    cases fuel <;> rfl
  · intro secs fuel tOff iat bnd unl h0 hsafe
    unfold delayFuncs32
    rw [if_neg h0, if_pos hsafe]
    exact ⟨_, rfl⟩
  · intro secs fuel tOff iat bnd unl h0 hsafe hiat hbnd hunl
    unfold delayFuncs32
    rw [if_neg h0, if_neg (by simp [hsafe]), if_neg hiat, if_neg hbnd, if_neg hunl]
    exact ⟨_, by cases fuel <;> rfl⟩
  · intro secs fuel descOff h1 h2 hres
    unfold delayMods32
    rw [if_neg h1, if_neg h2, hres]
  · intro secs fuel descOff tOff h1 h2 hres hsafe
    unfold delayMods32
    rw [if_neg h1, if_neg h2, hres]
    dsimp only
    rw [if_neg (by simp [hsafe])]
    exact ⟨_, by cases fuel <;> rfl⟩

set_option maxRecDepth 4000 in
/-- C9 (witness): on the concrete TLS input the first conjunct of the
amended theorem applies — the collected callback is cleared. -/
theorem C9_failure_containment_witness :
    (tlsBuf.read32 0x20 ≠ 0 ∧ ¬ tlsBuf.isPtrSafe (0x20 + 4) = true) ∧
    tlsCallbacks tlsBuf (tlsBuf.size + 1) 0x20 = [] :=
  ⟨⟨by decide, by decide⟩,
    (C9_failure_containment tlsBuf).1 tlsBuf.size 0x20 (by decide) (by decide)⟩

end DepWalk
